import Mathlib

/-!
Verification of the scratch-compiler x86_64 backend.

Shallow embedding of:
  * `src/src/codegen/x86_64/expr.rs` — the Expression Generator
    (`impl AsmProgram`: `generate_expr`, `generate_add_sub`, `generate_mul_div`,
    `generate_symbol`, `generate_func_call`, `generate_bool_expr`,
    `generate_double_expr`, `generate_cow_expr`, `generate_any_expr`,
    `generate_lit`, `generate_comparison`);
  * `src/src/codegen/x86_64.rs` — the older backend file present in the
    repository snapshot (`generate_proc`, `generate_statement`,
    `generate_proc_call`, `allocate_static_str`, `push_lit`, the
    `fmt::Display` rendering), embedded in namespace `X64`.

Modelling conventions:
  * Rust `f64` literals are modelled as `ℚ`; `f64::to_bits` is modelled by
    carrying the rational value itself in the instruction (distinct finite
    doubles have distinct bit patterns, so this is injective on the values
    the claims use).  The sign-bit flip `xor [rsp], (1 << 63)` is modelled
    as negation, which is exact for finite values.
  * Emitted assembly is a `List Instr`, one constructor per instruction
    line the source writes (a multi-line `emit` block becomes the list of
    its lines, in order).
  * Rust `&mut self` methods become state-passing functions
    `AsmProgram → Out α`; the `?` operator becomes error short-circuiting,
    `todo!()` / failed `assert!` become the `panicked` outcome.
  * The recursion of the generator over the IR is made total with an
    explicit fuel parameter; `spin` marks fuel exhaustion and never occurs
    for sufficiently large fuel.
  * String byte data is modelled at `Char` granularity (exact for the
    ASCII literals used in the theorems); `s.len()` is `String.length`.
-/

namespace Scratch

/-- Source span, from `src/src/parser.rs` (`Span { position, file }`). -/
structure Span where
  position_start : Nat
  position_end : Nat
  file : Nat
deriving DecidableEq, Repr

/-- `sb3_stuff::Value`, as used by the backend: number, string or bool
literal. Numbers (`f64`) are modelled as `ℚ`. -/
inductive Value where
  | Num : ℚ → Value
  | Str : String → Value
  | Bool : Bool → Value
deriving DecidableEq, Repr

/-- `crate::ir::expr::Expr` (module `ir` is not under `src/`; the shape is
fixed by its uses in `expr.rs` and `x86_64.rs`): literal, symbol, function
call, n-ary add/sub and n-ary mul/div. -/
inductive Expr where
  | Lit : Value → Expr
  | Sym : String → Span → Expr
  | FuncCall : String → Span → List Expr → Expr
  | AddSub : List Expr → List Expr → Expr
  | MulDiv : List Expr → List Expr → Expr

/-- `crate::ir::statement::Statement` (module `ir` is not under `src/`;
constructors fixed by the `match` in `x86_64.rs::generate_statement`;
payloads of the arms the backend leaves as `todo!()` are not modelled). -/
inductive Statement where
  | ProcCall : String → Span → List Expr → Statement
  | Do : List Statement → Statement
  | IfElse : Statement
  | Repeat : Statement
  | Forever : Statement → Statement
  | Until : Statement
  | While : Statement
  | For : Statement

/-- `crate::ir::proc::Procedure`: parameter names and a body, per the uses
`proc.params` / `proc.body` in `x86_64.rs::generate_proc`. -/
structure Procedure where
  params : List String
  body : Statement

/-- `crate::diagnostic::Error`, variants as constructed by the backend:
`UnknownVarOrList { span, sym_name }`,
`FunctionWrongArgCount { span, func_name, expected, got }`,
`UnknownFunction { span, func_name }`. -/
inductive CompileError where
  | UnknownVarOrList : Span → String → CompileError
  | FunctionWrongArgCount : Span → String → Nat → Nat → CompileError
  | UnknownFunction : Span → String → CompileError
deriving DecidableEq, Repr

/-- `super::typ::Typ` (module `typ` is not under `src/`; the five variants
are fixed by the exhaustive matches in `expr.rs` and match spec §3). -/
inductive Typ where
  | Double
  | Bool
  | StaticStr
  | OwnedString
  | Any
deriving DecidableEq, Repr

set_option maxHeartbeats 1600000 in
/-- One emitted assembly line of the Expression Generator, one constructor
per distinct instruction line written by `expr.rs` (plus the inline
`staticstr` data directive written by `allocate_static_str`). -/
inductive Instr where
  /- data directive: `staticstr {uid}, db {bytes of s}` -/
  | staticstr : Nat → String → Instr
  /- literals -/
  | mov_rax_double_bits : ℚ → Instr  -- `mov rax, {num.to_bits()}`
  | movq_xmm0_rax                    -- `movq xmm0, rax`
  | lea_rax_static : Nat → Instr     -- `lea rax, [{string_id}]`
  | mov_rdx_imm : Nat → Instr        -- `mov rdx, {s.len()}`
  | xor_eax_eax                      -- `xor eax, eax`
  | mov_eax_1                        -- `mov eax, 1`
  /- add/sub, mul/div -/
  | xorpd_xmm0_xmm0                  -- `xorpd xmm0, xmm0`
  | sub_rsp : Nat → Instr            -- `sub rsp, {8 or 16}`
  | add_rsp : Nat → Instr            -- `add rsp, {8 or 16}`
  | movsd_store_rsp_xmm0             -- `movsd [rsp], xmm0`
  | movsd_store_rsp_xmm1             -- `movsd [rsp], xmm1`
  | movsd_xmm0_rsp                   -- `movsd xmm0, [rsp]`
  | movsd_xmm1_rsp                   -- `movsd xmm1, [rsp]`
  | addsd_xmm0_rsp                   -- `addsd xmm0, [rsp]`
  | subsd_xmm1_xmm0                  -- `subsd xmm1, xmm0`
  | mulsd_xmm0_rsp                   -- `mulsd xmm0, [rsp]`
  | divsd_xmm1_xmm0                  -- `divsd xmm1, xmm0`
  | divsd_xmm0_rsp                   -- `divsd xmm0, [rsp]`
  | mov_rax_signbit                  -- `mov rax, (1 << 63)`
  | xor_rsp_rax                      -- `xor [rsp], rax`
  | mov_rax_float1                   -- `mov rax, __?float64?__(1.0)`
  /- symbols -/
  | mov_rdi_rbp : Nat → Instr        -- `mov rdi, [rbp+{off}]`
  | mov_rsi_rbp : Nat → Instr        -- `mov rsi, [rbp+{off}]`
  | mov_rdi_var : Nat → Instr        -- `mov rdi, [{var_id}]`
  | mov_rsi_var : Nat → Instr        -- `mov rsi, [{var_id}+8]`
  /- calls -/
  | call : String → Instr            -- `call {name}`
  | call_plt : String → Instr        -- `call {name} wrt ..plt`
  /- list access -/
  | mov_rdi_rax                      -- `mov rdi, rax`
  | mov_rsi_rdx                      -- `mov rsi, rdx`
  | lea_rdx_list : Nat → Instr       -- `lea rdx, [{list_id}]`
  | mov_rdi_list_len : Nat → Instr   -- `mov rdi, [{list_id}+8]`
  /- string concatenation -/
  | lea_rax_str_empty                -- `lea rax, [str_empty]`
  | xor_edx_edx                      -- `xor edx, edx`
  | push_rdx                         -- `push rdx`
  | push_rax                         -- `push rax`
  | pop_rax                          -- `pop rax`
  | pop_rdx                          -- `pop rdx`
  | add_rsp24_rdx                    -- `add [rsp+24], rdx`
  | mov_rdi_rsp40                    -- `mov rdi, [rsp+40]`
  | mov_rsp32_rax                    -- `mov [rsp+32], rax`
  | mov_rsi_rsp0                     -- `mov rsi, [rsp]`
  | mov_rdx_rsp8                     -- `mov rdx, [rsp+8]`
  | add_rdi_rsp8                     -- `add rdi, [rsp+8]`
  | mov_rsi_rsp16                    -- `mov rsi, [rsp+16]`
  | mov_rdx_rsp24                    -- `mov rdx, [rsp+24]`
  /- boolean combinators -/
  | test_rax_rax                     -- `test rax, rax`
  | jz : Nat → Instr                 -- `jz {local label}`
  | jnz : Nat → Instr                -- `jnz {local label}`
  | local_label : Nat → Instr        -- `{local label}:`
  | xor_rax_1                        -- `xor rax, 1`
  /- str-length / char-at -/
  | movsd_rsp16_xmm0                 -- `movsd [rsp+16], xmm0`
  | mov_rdx_rax                      -- `mov rdx, rax`
  | mov_rdi_rsp0                     -- `mov rdi, [rsp]`
  | mov_rsi_rsp8                     -- `mov rsi, [rsp+8]`
  | mov_rsp16_rax                    -- `mov [rsp+16], rax`
  | mov_rsp24_rdx                    -- `mov [rsp+24], rdx`
  /- unary math -/
  | mov_rax_absmask                  -- `mov rax, (1 << 63) - 1`
  | movq_xmm1_rax                    -- `movq xmm1, rax`
  | andpd_xmm0_xmm1                  -- `andpd xmm0, xmm1`
  | roundsd : Nat → Instr            -- `roundsd xmm0, xmm0, {mode}`
  | sqrtsd                           -- `sqrtsd xmm0, xmm0`
  /- comparison -/
  | ucomisd_xmm1_xmm0                -- `ucomisd xmm1, xmm0`
  | setb_al                          -- `setb al`
  | sete_al                          -- `sete al`
  /- Any packing -/
  | movq_rdx_xmm0                    -- `movq rdx, xmm0`
  | mov_rax_tag_double               -- `mov rax, 2`
deriving Repr

/-- Structural equality test on instruction lines: same constructor and
equal payloads.  Written as a diagonal match (rather than derived) so the
generated case split stays linear in the number of constructors. -/
def Instr.beq : Instr → Instr → Bool
  | .staticstr u1 s1, .staticstr u2 s2 => u1 == u2 && s1 == s2
  | .mov_rax_double_bits q1, .mov_rax_double_bits q2 => q1 == q2
  | .movq_xmm0_rax, .movq_xmm0_rax => true
  | .lea_rax_static n1, .lea_rax_static n2 => n1 == n2
  | .mov_rdx_imm n1, .mov_rdx_imm n2 => n1 == n2
  | .xor_eax_eax, .xor_eax_eax => true
  | .mov_eax_1, .mov_eax_1 => true
  | .xorpd_xmm0_xmm0, .xorpd_xmm0_xmm0 => true
  | .sub_rsp n1, .sub_rsp n2 => n1 == n2
  | .add_rsp n1, .add_rsp n2 => n1 == n2
  | .movsd_store_rsp_xmm0, .movsd_store_rsp_xmm0 => true
  | .movsd_store_rsp_xmm1, .movsd_store_rsp_xmm1 => true
  | .movsd_xmm0_rsp, .movsd_xmm0_rsp => true
  | .movsd_xmm1_rsp, .movsd_xmm1_rsp => true
  | .addsd_xmm0_rsp, .addsd_xmm0_rsp => true
  | .subsd_xmm1_xmm0, .subsd_xmm1_xmm0 => true
  | .mulsd_xmm0_rsp, .mulsd_xmm0_rsp => true
  | .divsd_xmm1_xmm0, .divsd_xmm1_xmm0 => true
  | .divsd_xmm0_rsp, .divsd_xmm0_rsp => true
  | .mov_rax_signbit, .mov_rax_signbit => true
  | .xor_rsp_rax, .xor_rsp_rax => true
  | .mov_rax_float1, .mov_rax_float1 => true
  | .mov_rdi_rbp n1, .mov_rdi_rbp n2 => n1 == n2
  | .mov_rsi_rbp n1, .mov_rsi_rbp n2 => n1 == n2
  | .mov_rdi_var n1, .mov_rdi_var n2 => n1 == n2
  | .mov_rsi_var n1, .mov_rsi_var n2 => n1 == n2
  | .call f1, .call f2 => f1 == f2
  | .call_plt f1, .call_plt f2 => f1 == f2
  | .mov_rdi_rax, .mov_rdi_rax => true
  | .mov_rsi_rdx, .mov_rsi_rdx => true
  | .lea_rdx_list n1, .lea_rdx_list n2 => n1 == n2
  | .mov_rdi_list_len n1, .mov_rdi_list_len n2 => n1 == n2
  | .lea_rax_str_empty, .lea_rax_str_empty => true
  | .xor_edx_edx, .xor_edx_edx => true
  | .push_rdx, .push_rdx => true
  | .push_rax, .push_rax => true
  | .pop_rax, .pop_rax => true
  | .pop_rdx, .pop_rdx => true
  | .add_rsp24_rdx, .add_rsp24_rdx => true
  | .mov_rdi_rsp40, .mov_rdi_rsp40 => true
  | .mov_rsp32_rax, .mov_rsp32_rax => true
  | .mov_rsi_rsp0, .mov_rsi_rsp0 => true
  | .mov_rdx_rsp8, .mov_rdx_rsp8 => true
  | .add_rdi_rsp8, .add_rdi_rsp8 => true
  | .mov_rsi_rsp16, .mov_rsi_rsp16 => true
  | .mov_rdx_rsp24, .mov_rdx_rsp24 => true
  | .test_rax_rax, .test_rax_rax => true
  | .jz n1, .jz n2 => n1 == n2
  | .jnz n1, .jnz n2 => n1 == n2
  | .local_label n1, .local_label n2 => n1 == n2
  | .xor_rax_1, .xor_rax_1 => true
  | .movsd_rsp16_xmm0, .movsd_rsp16_xmm0 => true
  | .mov_rdx_rax, .mov_rdx_rax => true
  | .mov_rdi_rsp0, .mov_rdi_rsp0 => true
  | .mov_rsi_rsp8, .mov_rsi_rsp8 => true
  | .mov_rsp16_rax, .mov_rsp16_rax => true
  | .mov_rsp24_rdx, .mov_rsp24_rdx => true
  | .mov_rax_absmask, .mov_rax_absmask => true
  | .movq_xmm1_rax, .movq_xmm1_rax => true
  | .andpd_xmm0_xmm1, .andpd_xmm0_xmm1 => true
  | .roundsd n1, .roundsd n2 => n1 == n2
  | .sqrtsd, .sqrtsd => true
  | .ucomisd_xmm1_xmm0, .ucomisd_xmm1_xmm0 => true
  | .setb_al, .setb_al => true
  | .sete_al, .sete_al => true
  | .movq_rdx_xmm0, .movq_rdx_xmm0 => true
  | .mov_rax_tag_double, .mov_rax_tag_double => true
  | _, _ => false

instance : BEq Instr := ⟨Instr.beq⟩

/-- The Expression Generator's state: uid source, the stack-alignment
parity flag, the emitted instruction stream, the current procedure's
parameter names, and the variable / list scopes (`lookup_var` /
`lookup_list` are not under `src/`; modelled from the spec as stable ids
looked up by name). -/
structure AsmProgram where
  uid_generator : Nat
  stack_aligned : Bool
  code : List Instr
  proc_params : List String
  vars : List (String × Nat)
  lists : List (String × Nat)
deriving Repr

/-- Outcome of a generator step: success with result and updated state,
compile error (Rust `Err`), panic (`todo!()` / failed `assert!`), or fuel
exhaustion (an artifact of the fuel encoding, never reached for
sufficiently large fuel). -/
inductive Out (α : Type) where
  | ok : α → AsmProgram → Out α
  | err : CompileError → Out α
  | panicked : Out α
  | spin : Out α
deriving Repr

/-- Generator computations: state-passing with error/panic propagation. -/
def M (α : Type) : Type := AsmProgram → Out α

def M.pure (a : α) : M α := fun s => .ok a s

def M.bind (x : M α) (f : α → M β) : M β := fun s =>
  match x s with
  | .ok a s' => f a s'
  | .err e => .err e
  | .panicked => .panicked
  | .spin => .spin

instance : Monad M where
  pure := M.pure
  bind := M.bind

/-- Append instructions to the output (`self.emit` / `writeln!(self, ..)`). -/
def emit (l : List Instr) (s : AsmProgram) : AsmProgram :=
  { s with code := s.code ++ l }

def emitM (l : List Instr) : M Unit := fun s => .ok () (emit l s)

/-- `self.new_uid()`. -/
def new_uid : M Nat := fun s =>
  .ok s.uid_generator { s with uid_generator := s.uid_generator + 1 }

def throwM (e : CompileError) : M α := fun _ => .err e

/-- `todo!()` and failed assertions. -/
def todoM : M α := fun _ => .panicked

def flip_aligned : M Unit := fun s =>
  .ok () { s with stack_aligned := !s.stack_aligned }

def get_aligned : M Bool := fun s => .ok s.stack_aligned s

def set_aligned (b : Bool) : M Unit := fun s =>
  .ok () { s with stack_aligned := b }

/-- Modelled from the spec: `aligning_call` is not present under `src/`
(only its call sites in `expr.rs` are).  Per spec §5, when the parity flag
records an odd number of outstanding words it "inserts an 8-byte pad
push/pop … removing it symmetrically afterward", so the call is padded and
the parity flag is left unchanged. -/
def aligning_call (f : String) : M Unit := fun s =>
  if s.stack_aligned then .ok () (emit [.call f] s)
  else .ok () (emit [.sub_rsp 8, .call f, .add_rsp 8] s)

/-- `allocate_static_str`, per the version present under `src/`
(`src/src/codegen/x86_64.rs` lines 224–236): a fresh uid on every call,
with the byte data written into the output at the allocation point. -/
def allocate_static_str (str : String) : M Nat := do
  let uid ← new_uid
  emitM [.staticstr uid str]
  pure uid

/-- `generate_lit` (`expr.rs` lines 533–565). -/
def generate_lit : Value → M Typ
  | .Num num => do
      emitM [.mov_rax_double_bits num, .movq_xmm0_rax]
      pure .Double
  | .Str str => do
      let string_id ← allocate_static_str str
      emitM [.lea_rax_static string_id, .mov_rdx_imm str.length]
      pure .StaticStr
  | .Bool false => do
      emitM [.xor_eax_eax]
      pure .Bool
  | .Bool true => do
      emitM [.mov_eax_1]
      pure .Bool

/-- `generate_symbol` (`expr.rs` lines 151–180): parameter slot, else
variable slot, else `Error::UnknownVarOrList`. -/
def generate_symbol (sym : String) (span : Span) : M Typ := fun s =>
  match s.proc_params.findIdx? (· = sym) with
  | some param_index =>
      (do
        let off := (s.proc_params.length - param_index) * 16
        emitM [.mov_rdi_rbp off, .mov_rsi_rbp (off + 8)]
        aligning_call "clone_any"
        pure Typ.Any) s
  | none =>
      match s.vars.lookup sym with
      | some var_id =>
          (do
            emitM [.mov_rdi_var var_id, .mov_rsi_var var_id]
            aligning_call "clone_any"
            pure Typ.Any) s
      | none => .err (.UnknownVarOrList span sym)

/-- Modelled from the spec: `lookup_list` is not present under `src/`
(only its call sites are).  Resolves a list name to its stable storage id,
and per spec §7 reports an unresolved list reference, carrying the span,
when the name is unknown. -/
def lookup_list (name : String) (span : Span) : M Nat := fun s =>
  match s.lists.lookup name with
  | some list_id => .ok list_id s
  | none => .err (.UnknownVarOrList span name)

/-- `wrong_arg_count` closure in `generate_func_call` (`expr.rs` 188–195). -/
def wrong_arg_count (span : Span) (func_name : String) (args : List Expr)
    (expected : Nat) : M Typ :=
  throwM (.FunctionWrongArgCount span func_name expected args.length)

/-- Decomposes a nonempty list (given as head and tail) into the Rust
slice pattern `[rest @ .., last]`. -/
def split_last : Expr → List Expr → List Expr × Expr
  | x, [] => ([], x)
  | x, y :: ys => let (r, l) := split_last y ys; (x :: r, l)

set_option maxHeartbeats 4000000 in
mutual

/-- `generate_expr` (`expr.rs` 11–25), with an explicit fuel parameter to
make the mutual recursion over the IR total. -/
def generate_expr (fuel : Nat) (expr : Expr) : M Typ :=
  match fuel with
  | 0 => fun _ => .spin
  | fuel + 1 =>
    match expr with
    | .Lit lit => generate_lit lit
    | .Sym sym sym_span => generate_symbol sym sym_span
    | .FuncCall func_name span args => generate_func_call fuel func_name span args
    | .AddSub positives negatives => generate_add_sub fuel positives negatives
    | .MulDiv numerators denominators => generate_mul_div fuel numerators denominators
termination_by structural fuel

/-- `generate_add_sub` (`expr.rs` 27–86). -/
def generate_add_sub (fuel : Nat) (positives negatives : List Expr) : M Typ :=
  match fuel with
  | 0 => fun _ => .spin
  | fuel + 1 =>
    match positives, negatives with
    | [], [] => do
        emitM [.xorpd_xmm0_xmm0]
        pure .Double
    | initial :: positives, negatives => do
        generate_double_expr fuel initial
        emitM [.sub_rsp 8, .movsd_store_rsp_xmm0]
        flip_aligned
        add_sub_pos_loop fuel positives
        add_sub_neg_loop fuel negatives
        emitM [.movsd_xmm0_rsp, .add_rsp 8]
        flip_aligned
        pure .Double
    | [], initial :: negatives => do
        generate_double_expr fuel initial
        emitM [.sub_rsp 8, .movsd_store_rsp_xmm0]
        flip_aligned
        add_sub_pos_loop fuel negatives
        emitM [.mov_rax_signbit, .xor_rsp_rax, .movsd_xmm0_rsp, .add_rsp 8]
        flip_aligned
        pure .Double
termination_by structural fuel

/-- The `for term in positives` loop of `generate_add_sub` (`expr.rs`
41–47); the `for term in negatives` loop of the all-negatives arm
(`expr.rs` 69–75) emits the same accumulation block and reuses this. -/
def add_sub_pos_loop (fuel : Nat) (terms : List Expr) : M Unit :=
  match fuel with
  | 0 => fun _ => .spin
  | fuel + 1 =>
    match terms with
    | [] => pure ()
    | term :: terms => do
        generate_double_expr fuel term
        emitM [.addsd_xmm0_rsp, .movsd_store_rsp_xmm0]
        add_sub_pos_loop fuel terms
termination_by structural fuel

/-- The `for term in negatives` loop of `generate_add_sub` (`expr.rs`
48–55). -/
def add_sub_neg_loop (fuel : Nat) (terms : List Expr) : M Unit :=
  match fuel with
  | 0 => fun _ => .spin
  | fuel + 1 =>
    match terms with
    | [] => pure ()
    | term :: terms => do
        generate_double_expr fuel term
        emitM [.movsd_xmm1_rsp, .subsd_xmm1_xmm0, .movsd_store_rsp_xmm1]
        add_sub_neg_loop fuel terms
termination_by structural fuel

/-- `generate_mul_div` (`expr.rs` 88–149). -/
def generate_mul_div (fuel : Nat) (numerators denominators : List Expr) : M Typ :=
  match fuel with
  | 0 => fun _ => .spin
  | fuel + 1 =>
    match numerators, denominators with
    | [], [] => do
        let _ ← generate_lit (.Num 1)
        pure .Double
    | initial :: numerators, denominators => do
        generate_double_expr fuel initial
        emitM [.sub_rsp 8, .movsd_store_rsp_xmm0]
        flip_aligned
        mul_div_num_loop fuel numerators
        mul_div_den_loop fuel denominators
        emitM [.movsd_xmm0_rsp, .add_rsp 8]
        flip_aligned
        pure .Double
    | [], initial :: denominators => do
        generate_double_expr fuel initial
        emitM [.sub_rsp 8, .movsd_store_rsp_xmm0]
        flip_aligned
        mul_div_num_loop fuel denominators
        emitM [.mov_rax_float1, .movq_xmm0_rax, .divsd_xmm0_rsp, .add_rsp 8]
        flip_aligned
        pure .Double
termination_by structural fuel

/-- The `for term in numerators` loop of `generate_mul_div` (`expr.rs`
104–110); the accumulation loop of the all-denominators arm (`expr.rs`
132–138) emits the same block and reuses this. -/
def mul_div_num_loop (fuel : Nat) (terms : List Expr) : M Unit :=
  match fuel with
  | 0 => fun _ => .spin
  | fuel + 1 =>
    match terms with
    | [] => pure ()
    | term :: terms => do
        generate_double_expr fuel term
        emitM [.mulsd_xmm0_rsp, .movsd_store_rsp_xmm0]
        mul_div_num_loop fuel terms
termination_by structural fuel

/-- The `for term in denominators` loop of `generate_mul_div` (`expr.rs`
111–118). -/
def mul_div_den_loop (fuel : Nat) (terms : List Expr) : M Unit :=
  match fuel with
  | 0 => fun _ => .spin
  | fuel + 1 =>
    match terms with
    | [] => pure ()
    | term :: terms => do
        generate_double_expr fuel term
        emitM [.movsd_xmm1_rsp, .divsd_xmm1_xmm0, .movsd_store_rsp_xmm1]
        mul_div_den_loop fuel terms
termination_by structural fuel

/-- `generate_func_call` (`expr.rs` 182–465). -/
def generate_func_call (fuel : Nat) (func_name : String) (span : Span)
    (args : List Expr) : M Typ :=
  match fuel with
  | 0 => fun _ => .spin
  | fuel + 1 =>
    match func_name with
    | "!!" =>
      match args with
      | [.Sym list_name list_span, index] => do
          let list_id ← lookup_list list_name list_span
          generate_any_expr fuel index
          emitM [.mov_rdi_rax, .mov_rsi_rdx, .lea_rdx_list list_id]
          aligning_call "list_get"
          pure .Any
      | _ => wrong_arg_count span func_name args 2
    | "++" =>
      match args with
      | [] => do
          emitM [.lea_rax_str_empty, .xor_edx_edx]
          pure .StaticStr
      | [single] => generate_expr fuel single
      | arg0 :: arg1 :: more => do
          let (rest, last) := split_last arg0 (arg1 :: more)
          generate_cow_expr fuel last
          let stack_was_aligned ← get_aligned
          if stack_was_aligned then pure () else emitM [.sub_rsp 8]
          set_aligned true
          concat_loop fuel rest
          if stack_was_aligned then pure () else emitM [.add_rsp 8]
          set_aligned stack_was_aligned
          pure .OwnedString
    | "and" | "or" =>
      match args with
      | [] =>
          if func_name = "and" then generate_lit (.Bool true)
          else generate_lit (.Bool false)
      | [single] => generate_expr fuel single
      | arg0 :: arg1 :: more => do
          let (rest, last) := split_last arg0 (arg1 :: more)
          let short_circuit ← new_uid
          bool_jump_loop fuel (func_name = "and") short_circuit rest
          generate_bool_expr fuel last
          emitM [.local_label short_circuit]
          pure .Bool
    | "not" =>
      match args with
      | [operand] => do
          generate_bool_expr fuel operand
          emitM [.xor_rax_1]
          pure .Bool
      | _ => wrong_arg_count span func_name args 1
    | "<" | "=" | ">" =>
      match args with
      | [lhs, rhs] =>
          let ordering : Ordering :=
            if func_name = "<" then .lt
            else if func_name = "=" then .eq
            else .gt
          generate_comparison fuel ordering lhs rhs
      | _ => wrong_arg_count span func_name args 2
    | "length" =>
      match args with
      | [.Sym list_name list_span] => do
          let list_id ← lookup_list list_name list_span
          emitM [.mov_rdi_list_len list_id, .call "usize_to_double"]
          pure .Double
      | _ => wrong_arg_count span func_name args 1
    | "str-length" =>
      match args with
      | [str_arg] => do
          generate_cow_expr fuel str_arg
          let stack_was_aligned ← get_aligned
          emitM [.sub_rsp (if stack_was_aligned then 8 else 16)]
          set_aligned true
          emitM [.push_rdx, .push_rax, .call "str_length", .mov_rdi_rax,
                 .call "usize_to_double", .movsd_rsp16_xmm0,
                 .call "drop_pop_cow", .movsd_xmm0_rsp]
          emitM [.add_rsp (if stack_was_aligned then 8 else 16)]
          set_aligned stack_was_aligned
          pure .Double
      | _ => wrong_arg_count span func_name args 1
    | "char-at" =>
      match args with
      | [str_arg, index] => do
          generate_cow_expr fuel str_arg
          emitM [.sub_rsp 16, .push_rdx, .push_rax]
          generate_double_expr fuel index
          let stack_was_aligned ← get_aligned
          if stack_was_aligned then pure () else emitM [.sub_rsp 8]
          set_aligned true
          emitM [.call "double_to_usize", .mov_rdx_rax, .mov_rdi_rsp0,
                 .mov_rsi_rsp8, .call "char_at", .mov_rsp16_rax,
                 .mov_rsp24_rdx, .call "drop_pop_cow", .pop_rax, .pop_rdx]
          if stack_was_aligned then pure () else emitM [.add_rsp 8]
          set_aligned stack_was_aligned
          pure .OwnedString
      | _ => wrong_arg_count span func_name args 2
    | "mod" =>
      match args with
      | [lhs, rhs] => do
          generate_double_expr fuel rhs
          let stack_was_aligned ← get_aligned
          emitM [.sub_rsp (if stack_was_aligned then 8 else 16)]
          set_aligned true
          emitM [.movsd_store_rsp_xmm0]
          generate_double_expr fuel lhs
          emitM [.movsd_xmm1_rsp, .call "fmod"]
          emitM [.add_rsp (if stack_was_aligned then 8 else 16)]
          set_aligned stack_was_aligned
          pure .Double
      | _ => wrong_arg_count span func_name args 2
    | "abs" =>
        mathop fuel span func_name args
          [.mov_rax_absmask, .movq_xmm1_rax, .andpd_xmm0_xmm1]
    | "floor" => mathop fuel span func_name args [.roundsd 1]
    | "ceil" => mathop fuel span func_name args [.roundsd 2]
    | "sqrt" => mathop fuel span func_name args [.sqrtsd]
    | "ln" => libc_mathop fuel span func_name args "log"
    | "log" => libc_mathop fuel span func_name args "log10"
    | "e^" => libc_mathop fuel span func_name args "exp"
    | "ten^" => libc_mathop fuel span func_name args "exp10"
    | "sin" => libc_mathop fuel span func_name args "sin"
    | "cos" => libc_mathop fuel span func_name args "cos"
    | "tan" => libc_mathop fuel span func_name args "tan"
    | "asin" => libc_mathop fuel span func_name args "asin"
    | "acos" => libc_mathop fuel span func_name args "acos"
    | "atan" => libc_mathop fuel span func_name args "atan"
    | "pressing-key" => todoM
    | "to-num" =>
      match args with
      | [operand] => do
          generate_double_expr fuel operand
          pure .Double
      | _ => wrong_arg_count span func_name args 1
    | "random" => todoM
    | _ => throwM (.UnknownFunction span func_name)
termination_by structural fuel

/-- The `for arg in rest.iter().rev()` fold of the `"++"` branch
(`expr.rs` 248–277); the recursion processes the tail first, so the
operands are visited right-to-left as in the source. -/
def concat_loop (fuel : Nat) (rest : List Expr) : M Unit :=
  match fuel with
  | 0 => fun _ => .spin
  | fuel + 1 =>
    match rest with
    | [] => pure ()
    | arg :: rest => do
        concat_loop fuel rest
        emitM [.push_rdx, .sub_rsp 8, .push_rdx, .push_rax]
        generate_cow_expr fuel arg
        emitM [.add_rsp24_rdx, .push_rdx, .push_rax, .mov_rdi_rsp40,
               .call_plt "malloc", .mov_rsp32_rax, .mov_rdi_rax,
               .mov_rsi_rsp0, .mov_rdx_rsp8, .call_plt "memcpy",
               .mov_rdi_rax, .add_rdi_rsp8, .mov_rsi_rsp16, .mov_rdx_rsp24,
               .call_plt "memcpy", .call "drop_pop_cow",
               .call "drop_pop_cow", .pop_rax, .pop_rdx]
termination_by structural fuel

/-- The `for arg in rest` loop of the `"and" | "or"` branch
(`expr.rs` 296–304). -/
def bool_jump_loop (fuel : Nat) (is_and : Bool) (short_circuit : Nat)
    (rest : List Expr) : M Unit :=
  match fuel with
  | 0 => fun _ => .spin
  | fuel + 1 =>
    match rest with
    | [] => pure ()
    | arg :: rest => do
        generate_bool_expr fuel arg
        emitM [.test_rax_rax,
               if is_and then .jz short_circuit else .jnz short_circuit]
        bool_jump_loop fuel is_and short_circuit rest
termination_by structural fuel

/-- The `mathop` closure of `generate_func_call` (`expr.rs` 197–204). -/
def mathop (fuel : Nat) (span : Span) (func_name : String)
    (args : List Expr) (code : List Instr) : M Typ :=
  match fuel with
  | 0 => fun _ => .spin
  | fuel + 1 =>
    match args with
    | [operand] => do
        generate_double_expr fuel operand
        emitM code
        pure .Double
    | _ => wrong_arg_count span func_name args 1
termination_by structural fuel

/-- The `libc_mathop` closure of `generate_func_call` (`expr.rs`
206–213). -/
def libc_mathop (fuel : Nat) (span : Span) (func_name : String)
    (args : List Expr) (libc_name : String) : M Typ :=
  match fuel with
  | 0 => fun _ => .spin
  | fuel + 1 =>
    match args with
    | [operand] => do
        generate_double_expr fuel operand
        emitM [.call_plt libc_name]
        pure .Double
    | _ => wrong_arg_count span func_name args 1
termination_by structural fuel

/-- `generate_comparison` (`expr.rs` 567–619): a `Greater` request is
canonicalized to `Less` with the operands swapped before any code is
generated. -/
def generate_comparison (fuel : Nat) (ordering : Ordering)
    (lhs rhs : Expr) : M Typ :=
  match fuel with
  | 0 => fun _ => .spin
  | fuel + 1 =>
    match (if ordering = .gt then (Ordering.lt, rhs, lhs)
           else (ordering, lhs, rhs)) with
    | (ordering, lhs, rhs) => do
      let t ← generate_expr fuel lhs
      match t with
      | .Double => do
          emitM [.sub_rsp 8, .movsd_store_rsp_xmm0]
          flip_aligned
          let t2 ← generate_expr fuel rhs
          match t2 with
          | .Double => do
              emitM [.movsd_xmm1_rsp, .xor_eax_eax, .ucomisd_xmm1_xmm0,
                     if ordering = .lt then .setb_al else .sete_al]
              emitM [.add_rsp 8]
              flip_aligned
              pure .Bool
          | .Bool =>
              if ordering = .eq then do
                emitM [.xor_eax_eax]
                emitM [.add_rsp 8]
                flip_aligned
                pure .Bool
              else todoM
          | .StaticStr => todoM
          | .OwnedString => todoM
          | .Any => todoM
      | .Bool => todoM
      | .StaticStr => todoM
      | .OwnedString => todoM
      | .Any => todoM
termination_by structural fuel

/-- `generate_bool_expr` (`expr.rs` 467–480). -/
def generate_bool_expr (fuel : Nat) (expr : Expr) : M Unit :=
  match fuel with
  | 0 => fun _ => .spin
  | fuel + 1 => do
    let t ← generate_expr fuel expr
    match t with
    | .Double => aligning_call "double_to_bool"
    | .Bool => pure ()
    | .StaticStr => aligning_call "static_str_to_bool"
    | .OwnedString => aligning_call "owned_string_to_bool"
    | .Any => aligning_call "any_to_bool"
termination_by structural fuel

/-- `generate_double_expr` (`expr.rs` 482–504). -/
def generate_double_expr (fuel : Nat) (expr : Expr) : M Unit :=
  match fuel with
  | 0 => fun _ => .spin
  | fuel + 1 => do
    let t ← generate_expr fuel expr
    match t with
    | .Double => pure ()
    | .Bool => aligning_call "bool_to_double"
    | .StaticStr => aligning_call "static_str_to_double"
    | .OwnedString => aligning_call "owned_string_to_double"
    | .Any => do
        emitM [.mov_rdi_rax, .mov_rsi_rdx]
        aligning_call "any_to_double"
termination_by structural fuel

/-- `generate_cow_expr` (`expr.rs` 506–520). -/
def generate_cow_expr (fuel : Nat) (expr : Expr) : M Unit :=
  match fuel with
  | 0 => fun _ => .spin
  | fuel + 1 => do
    let t ← generate_expr fuel expr
    match t with
    | .Double => aligning_call "double_to_cow"
    | .Bool => aligning_call "bool_to_static_str"
    | .StaticStr => pure ()
    | .OwnedString => pure ()
    | .Any => do
        emitM [.mov_rdi_rax, .mov_rsi_rdx]
        aligning_call "any_to_cow"
termination_by structural fuel

/-- `generate_any_expr` (`expr.rs` 522–531). -/
def generate_any_expr (fuel : Nat) (expr : Expr) : M Unit :=
  match fuel with
  | 0 => fun _ => .spin
  | fuel + 1 => do
    let t ← generate_expr fuel expr
    match t with
    | .Double => emitM [.movq_rdx_xmm0, .mov_rax_tag_double]
    | .Bool => pure ()
    | .StaticStr => pure ()
    | .OwnedString => pure ()
    | .Any => pure ()
termination_by structural fuel

end

/-! ## The older backend file `src/src/codegen/x86_64.rs`

The second backend present in the snapshot: `write_asm_file`,
`generate_proc`, `generate_statement`, `generate_proc_call`, its own
`generate_expr` / `generate_func_call`, `allocate_static_str`, `push_lit`,
`cowify`, `drop_pop` and the `fmt::Display` rendering.  Embedded in its
own namespace since its `AsmProgram` differs from the one `expr.rs`
extends. -/

namespace X64

/-- One line (or contiguous fixed block) of text written into
`AsmProgram::text` by `x86_64.rs`; blocks no claim inspects internally are
kept as single constructors. -/
inductive Line where
  | label : Nat → Line                  -- `{uid}:` (the `Label` emitter)
  | ret                                 -- `    ret`
  | jmp : Nat → Line                    -- `    jmp {loop_label}`
  | staticstr : Nat → String → Line     -- `staticstr {uid}, db {bytes}`
  | write_lit_syscall : Nat → Nat → Line
      -- `mov rax, 1 / mov rdi, 1 / mov rsi, {id} / mov rdx, {len} / syscall`
  | write_stack_syscall
      -- `mov rdx, rsi / mov rsi, rdi / mov rax, 1 / mov rdi, 1 / syscall`
  | call_cowify                         -- `    call cowify`
  | call_drop_pop                       -- `    call drop_pop`
  | push_num : ℚ → Line                 -- `mov rax, {bits} / push rax / push 2`
  | push_static : Nat → Nat → Line
      -- `mov rax, {len} / push rax / mov rcx, {string_id} / push rcx`
  | push_bool : Bool → Line             -- `push 0 / push {0 or 1}`
  | push0_push0                         -- `push 0` / `push 0` (`"++"` branch)
  | concat_block                        -- the malloc/memcpy block of `"++"`
deriving DecidableEq, Repr

/-- `struct AsmProgram` of `x86_64.rs` (lines 38–42). -/
structure AsmProgram where
  uid_generator : Nat
  entry_points : List Nat
  text : List Line
deriving DecidableEq, Repr

/-- Outcome of the old backend's fallible methods: `Ok`, `Err`, or a panic
(`todo!()` / failed `assert!`).  `spin` is fuel exhaustion as before. -/
inductive Out (α : Type) where
  | ok : α → AsmProgram → Out α
  | err : CompileError → Out α
  | panicked : Out α
  | spin : Out α
deriving Repr

def put (l : List Line) (p : AsmProgram) : AsmProgram :=
  { p with text := p.text ++ l }

/-- `allocate_static_str` (`x86_64.rs` lines 224–236): a fresh uid from
`new_uid` on every call, and the `staticstr {uid}, db …` data line written
into the text at the call point.  No content lookup is performed. -/
def allocate_static_str (s : String) (p : AsmProgram) : Nat × AsmProgram :=
  (p.uid_generator,
   { p with
      uid_generator := p.uid_generator + 1,
      text := p.text ++ [.staticstr p.uid_generator s] })

/-- `push_lit` (`x86_64.rs` lines 238–279). -/
def push_lit (lit : Value) (p : AsmProgram) : AsmProgram :=
  match lit with
  | .Num num => put [.push_num num] p
  | .Str s =>
      let (string_id, p) := allocate_static_str s p
      put [.push_static string_id s.length] p
  | .Bool b => put [.push_bool b] p

/-- `cowify` (`x86_64.rs` lines 281–283). -/
def cowify (p : AsmProgram) : AsmProgram := put [.call_cowify] p

/-- `drop_pop` (`x86_64.rs` lines 285–287). -/
def drop_pop (p : AsmProgram) : AsmProgram := put [.call_drop_pop] p

/-- Modelled from the spec: `sb3_stuff::Value::to_cow_str` lives in an
external crate.  String values render as themselves; bool and numeric
rendering are abstracted (only the print-literal path uses this, and no
claim inspects the rendered digits). -/
def to_cow_str : Value → String
  | .Str s => s
  | .Bool b => if b then "true" else "false"
  | .Num q => toString q

mutual

/-- The old `generate_expr` (`x86_64.rs` lines 133–146): only literals and
function calls are implemented; the rest is `todo!()`. -/
def generate_expr (fuel : Nat) (expr : Expr) (p : AsmProgram) : Out Unit :=
  match fuel with
  | 0 => .spin
  | fuel + 1 =>
    match expr with
    | .Lit lit => .ok () (push_lit lit p)
    | .Sym _ _ => .panicked
    | .FuncCall func_name span args => generate_func_call fuel func_name span args p
    | .AddSub _ _ => .panicked
    | .MulDiv _ _ => .panicked
termination_by structural fuel

/-- The old `generate_func_call` (`x86_64.rs` lines 148–222): only `"++"`
with one or two arguments is implemented; every other known name is
`todo!()`, and unknown names are `Error::UnknownFunction`. -/
def generate_func_call (fuel : Nat) (func_name : String) (span : Span)
    (args : List Expr) (p : AsmProgram) : Out Unit :=
  match fuel with
  | 0 => .spin
  | fuel + 1 =>
    match func_name with
    | "++" =>
      match args with
      | [single] => generate_expr fuel single p
      | [lhs, rhs] =>
        let p := put [.push0_push0] p
        match generate_expr fuel rhs p with
        | .ok _ p =>
          let p := cowify p
          match generate_expr fuel lhs p with
          | .ok _ p =>
            let p := cowify p
            let p := put [.concat_block] p
            .ok () (drop_pop (drop_pop p))
          | r => r
        | r => r
      | _ => .panicked
    | "!!" | "and" | "or" | "not" | "=" | "<" | ">" | "length"
    | "str-length" | "char-at" | "mod" | "abs" | "floor" | "ceil" | "sqrt"
    | "ln" | "log" | "e^" | "ten^" | "sin" | "cos" | "tan" | "asin"
    | "acos" | "atan" | "pressing-key" | "to-num" | "random" => .panicked
    | _ => .err (.UnknownFunction span func_name)
termination_by structural fuel

end

mutual

/-- `generate_statement` (`x86_64.rs` lines 68–89). -/
def generate_statement (fuel : Nat) (stmt : Statement) (p : AsmProgram) :
    Out Unit :=
  match fuel with
  | 0 => .spin
  | fuel + 1 =>
    match stmt with
    | .ProcCall proc_name _ args => generate_proc_call fuel proc_name args p
    | .Do stmts => statement_list fuel stmts p
    | .IfElse => .panicked
    | .Repeat => .panicked
    | .Forever body =>
        let loop_label := p.uid_generator
        let p := { p with uid_generator := p.uid_generator + 1 }
        let p := put [.label loop_label] p
        match generate_statement fuel body p with
        | .ok _ p => .ok () (put [.jmp loop_label] p)
        | r => r
    | .Until => .panicked
    | .While => .panicked
    | .For => .panicked
termination_by structural fuel

/-- The `stmts.iter().try_for_each(...)` of the `Do` arm. -/
def statement_list (fuel : Nat) (stmts : List Statement) (p : AsmProgram) :
    Out Unit :=
  match fuel with
  | 0 => .spin
  | fuel + 1 =>
    match stmts with
    | [] => .ok () p
    | stmt :: stmts =>
      match generate_statement fuel stmt p with
      | .ok _ p => statement_list fuel stmts p
      | r => r
termination_by structural fuel

/-- `generate_proc_call` (`x86_64.rs` lines 91–131): only `"print"` with a
single argument is implemented. -/
def generate_proc_call (fuel : Nat) (proc_name : String) (args : List Expr)
    (p : AsmProgram) : Out Unit :=
  match fuel with
  | 0 => .spin
  | fuel + 1 =>
    match proc_name with
    | "print" =>
      match args with
      | [message] =>
        match message with
        | .Lit message =>
            let msg := to_cow_str message
            let (message_id, p) := allocate_static_str msg p
            .ok () (put [.write_lit_syscall message_id msg.length] p)
        | _ =>
          match generate_expr fuel message p with
          | .ok _ p =>
              let p := cowify p
              let p := put [.write_stack_syscall] p
              .ok () (drop_pop p)
          | r => r
      | _ => .panicked
    | _ => .panicked

end

/-- `generate_proc` (`x86_64.rs` lines 53–66): only `"when-flag-clicked"`
is implemented; its parameter list is checked with
`assert!(proc.params.is_empty())`, which panics when parameters are
present; on success the fresh label is registered as an entry point and
the body is compiled, followed by `ret`. -/
def generate_proc (fuel : Nat) (name : String) (proc : Procedure)
    (p : AsmProgram) : Out Nat :=
  match name with
  | "when-flag-clicked" =>
      if proc.params = [] then
        let proc_id := p.uid_generator
        let p := { p with
          uid_generator := p.uid_generator + 1,
          entry_points := p.entry_points ++ [proc_id] }
        let p := put [.label proc_id] p
        match generate_statement fuel proc.body p with
        | .ok _ p => .ok proc_id (put [.ret] p)
        | .err e => .err e
        | .panicked => .panicked
        | .spin => .spin
      else .panicked
  | _ => .panicked

/-- The driver loop of `write_asm_file` (`x86_64.rs` lines 23–30): one
`generate_proc` per named procedure, in declaration order, aborting on the
first error. -/
def generate_program (fuel : Nat) (procs : List (String × Procedure))
    (p : AsmProgram) : Out Unit :=
  match procs with
  | [] => .ok () p
  | (name, proc) :: procs =>
    match generate_proc fuel name proc p with
    | .ok _ p => generate_program fuel procs p
    | .err e => .err e
    | .panicked => .panicked
    | .spin => .spin

/-- The initial `AsmProgram` of `write_asm_file` (`x86_64.rs` 17–21). -/
def empty_program : AsmProgram := ⟨0, [], []⟩

/-- One line of the final rendered output. -/
inductive RenderLine where
  | prelude_text                        -- `include_str!("x86_64/prelude.s")`
  | main_label                          -- `main:`
  | call_entry : Nat → RenderLine       -- `    call {entry_point}`
  | exit_block                          -- `mov rax, 60 / mov rdi, 0 / syscall`
  | text : Line → RenderLine
deriving DecidableEq, Repr

/-- The `fmt::Display` impl for `AsmProgram` (`x86_64.rs` lines 290–307):
prelude, `main:`, one `call` per registered entry point in registration
order, the exit syscall, then the accumulated text. -/
def render (p : AsmProgram) : List RenderLine :=
  [.prelude_text, .main_label]
    ++ p.entry_points.map .call_entry
    ++ [.exit_block]
    ++ p.text.map .text

end X64

/-! ## Machine semantics for the double-arithmetic fragment

Interprets the instructions emitted by `generate_add_sub` /
`generate_mul_div` / `generate_lit` on a machine whose float values are
the `ℚ` model of `f64`.  `mov rax, {bits}` / `movq xmm0, rax` transport
the modelled value; `xor [rsp], (1 << 63)` (sign-bit flip) is negation,
exact for finite doubles; `divsd` is `ℚ` division (the division-free
claims are unaffected by the 0-divisor convention). -/

namespace ArithSem

/-- A machine word: the bit pattern of a modelled double, the sign-bit
mask `1 << 63`, or an uninitialized word. -/
inductive W where
  | q : ℚ → W
  | signmask : W
  | junk : W
deriving DecidableEq, Repr

/-- Machine state for the arithmetic fragment: the two xmm registers
holding modelled doubles, `rax`, and the stack (top first, one entry per
8-byte word). -/
structure AState where
  xmm0 : ℚ
  xmm1 : ℚ
  rax : W
  stack : List W
deriving DecidableEq, Repr

/-- One instruction of the arithmetic fragment; anything else is outside
this fragment's semantics. -/
def step : Instr → AState → Option AState
  | .mov_rax_double_bits v, m => some { m with rax := .q v }
  | .movq_xmm0_rax, m =>
      match m.rax with
      | .q v => some { m with xmm0 := v }
      | _ => none
  | .xorpd_xmm0_xmm0, m => some { m with xmm0 := 0 }
  | .sub_rsp 8, m => some { m with stack := .junk :: m.stack }
  | .add_rsp 8, m =>
      match m.stack with
      | _ :: rest => some { m with stack := rest }
      | [] => none
  | .movsd_store_rsp_xmm0, m =>
      match m.stack with
      | _ :: rest => some { m with stack := .q m.xmm0 :: rest }
      | [] => none
  | .movsd_store_rsp_xmm1, m =>
      match m.stack with
      | _ :: rest => some { m with stack := .q m.xmm1 :: rest }
      | [] => none
  | .movsd_xmm0_rsp, m =>
      match m.stack with
      | .q v :: _ => some { m with xmm0 := v }
      | _ => none
  | .movsd_xmm1_rsp, m =>
      match m.stack with
      | .q v :: _ => some { m with xmm1 := v }
      | _ => none
  | .addsd_xmm0_rsp, m =>
      match m.stack with
      | .q v :: _ => some { m with xmm0 := m.xmm0 + v }
      | _ => none
  | .subsd_xmm1_xmm0, m => some { m with xmm1 := m.xmm1 - m.xmm0 }
  | .mulsd_xmm0_rsp, m =>
      match m.stack with
      | .q v :: _ => some { m with xmm0 := m.xmm0 * v }
      | _ => none
  | .divsd_xmm1_xmm0, m => some { m with xmm1 := m.xmm1 / m.xmm0 }
  | .divsd_xmm0_rsp, m =>
      match m.stack with
      | .q v :: _ => some { m with xmm0 := m.xmm0 / v }
      | _ => none
  | .mov_rax_signbit, m => some { m with rax := .signmask }
  | .xor_rsp_rax, m =>
      match m.rax, m.stack with
      | .signmask, .q v :: rest => some { m with stack := .q (-v) :: rest }
      | _, _ => none
  | .mov_rax_float1, m => some { m with rax := .q 1 }
  | _, _ => none

/-- Run a straight-line instruction sequence. -/
def run : List Instr → AState → Option AState
  | [], m => some m
  | i :: is, m =>
      match step i m with
      | some m' => run is m'
      | none => none

end ArithSem

/-! ## Machine semantics for the string-concatenation fragment

Interprets the instruction block emitted per fold step of the `"++"`
branch, together with the literal-materialization instructions, on a
machine with an explicit heap.  The Runtime Support Contract helpers are
modelled from the spec (§6): `malloc` allocates a fresh block of the
requested size, `memcpy` copies `rdx` bytes from `rsi` to `rdi` and
returns the destination, and `drop_pop_cow` consumes one (pointer,
length) cow pair off the stack, releasing the pointed-to heap block when
the cow is owned (borrowed static data is never released). -/

namespace StrSem

/-- Base region of a pointer: an interned static string, the `str_empty`
label from the prelude, or an allocated heap block. -/
inductive Base where
  | static : Nat → Base
  | str_empty : Base
  | heap : Nat → Base
deriving DecidableEq, Repr

/-- A machine word: a plain number (e.g. a length), a pointer with byte
offset, or an uninitialized word. -/
inductive HV where
  | n : Nat → HV
  | ptr : Base → Nat → HV
  | junk : HV
deriving DecidableEq, Repr

/-- Machine state: the registers the fragment touches, the stack (top
first), the recorded static-data directives, the heap (blocks of possibly
uninitialized bytes), and the set of released heap blocks. -/
structure CState where
  rax : HV
  rdx : HV
  rdi : HV
  rsi : HV
  stack : List HV
  statics : List (Nat × String)
  heap : List (List (Option Char))
  freed : List Nat
deriving DecidableEq, Repr

/-- The bytes a base region holds (bytes modelled at `Char` granularity,
exact for ASCII content). -/
def read_base (m : CState) : Base → Option (List (Option Char))
  | .static uid => (m.statics.lookup uid).map (fun s => s.data.map some)
  | .str_empty => some []
  | .heap i => m.heap.get? i

/-- Overwrite `src.length` bytes of `dst` starting at offset `o`. -/
def copy_into (dst : List (Option Char)) (o : Nat) (src : List (Option Char)) :
    List (Option Char) :=
  dst.take o ++ src ++ dst.drop (o + src.length)

def step : Instr → CState → Option CState
  | .staticstr uid s, m => some { m with statics := m.statics ++ [(uid, s)] }
  | .lea_rax_static uid, m => some { m with rax := .ptr (.static uid) 0 }
  | .mov_rdx_imm len, m => some { m with rdx := .n len }
  | .lea_rax_str_empty, m => some { m with rax := .ptr .str_empty 0 }
  | .xor_edx_edx, m => some { m with rdx := .n 0 }
  | .push_rdx, m => some { m with stack := m.rdx :: m.stack }
  | .push_rax, m => some { m with stack := m.rax :: m.stack }
  | .pop_rax, m =>
      match m.stack with
      | v :: rest => some { m with rax := v, stack := rest }
      | [] => none
  | .pop_rdx, m =>
      match m.stack with
      | v :: rest => some { m with rdx := v, stack := rest }
      | [] => none
  | .sub_rsp 8, m => some { m with stack := .junk :: m.stack }
  | .add_rsp 8, m =>
      match m.stack with
      | _ :: rest => some { m with stack := rest }
      | [] => none
  | .add_rsp24_rdx, m =>
      match m.stack.get? 3, m.rdx with
      | some (.n a), .n b => some { m with stack := m.stack.set 3 (.n (a + b)) }
      | _, _ => none
  | .mov_rdi_rsp40, m =>
      match m.stack.get? 5 with
      | some v => some { m with rdi := v }
      | none => none
  | .mov_rsp32_rax, m =>
      if 4 < m.stack.length then some { m with stack := m.stack.set 4 m.rax }
      else none
  | .mov_rdi_rax, m => some { m with rdi := m.rax }
  | .mov_rsi_rsp0, m =>
      match m.stack.get? 0 with
      | some v => some { m with rsi := v }
      | none => none
  | .mov_rdx_rsp8, m =>
      match m.stack.get? 1 with
      | some v => some { m with rdx := v }
      | none => none
  | .add_rdi_rsp8, m =>
      match m.rdi, m.stack.get? 1 with
      | .ptr b o, some (.n k) => some { m with rdi := .ptr b (o + k) }
      | _, _ => none
  | .mov_rsi_rsp16, m =>
      match m.stack.get? 2 with
      | some v => some { m with rsi := v }
      | none => none
  | .mov_rdx_rsp24, m =>
      match m.stack.get? 3 with
      | some v => some { m with rdx := v }
      | none => none
  | .call_plt "malloc", m =>
      match m.rdi with
      | .n size =>
          some { m with
            rax := .ptr (.heap m.heap.length) 0,
            heap := m.heap ++ [List.replicate size none] }
      | _ => none
  | .call_plt "memcpy", m =>
      match m.rdi, m.rsi, m.rdx with
      | .ptr (.heap d) o, .ptr src so, .n len =>
          match m.heap.get? d, read_base m src with
          | some dblk, some sblk =>
              if so + len ≤ sblk.length ∧ o + len ≤ dblk.length then
                some { m with
                  heap := m.heap.set d
                    (copy_into dblk o ((sblk.drop so).take len)),
                  rax := m.rdi }
              else none
          | _, _ => none
      | _, _, _ => none
  | .call "drop_pop_cow", m =>
      match m.stack with
      | .ptr b _ :: .n _ :: rest =>
          match b with
          | .heap i =>
              if i ∈ m.freed then none
              else some { m with stack := rest, freed := m.freed ++ [i] }
          | _ => some { m with stack := rest }
      | _ => none
  | _, _ => none

def run : List Instr → CState → Option CState
  | [], m => some m
  | i :: is, m =>
      match step i m with
      | some m' => run is m'
      | none => none

end StrSem

/-! ## Stack-alignment bookkeeping lemmas

`AlignPres m`: every successful run of `m` leaves the parity flag as it
found it.  `FlagTr m f`: a successful run maps the incoming flag through
`f`.  `FinalFlag m b`: a successful run ends with flag `b`. -/

def AlignPres (m : M α) : Prop :=
  ∀ s r s', m s = .ok r s' → s'.stack_aligned = s.stack_aligned

def FlagTr (m : M α) (f : Bool → Bool) : Prop :=
  ∀ s r s', m s = .ok r s' → s'.stack_aligned = f s.stack_aligned

def FinalFlag (m : M α) (b : Bool) : Prop :=
  ∀ s r s', m s = .ok r s' → s'.stack_aligned = b

/-! ## Claim-level example states, code shapes and predicates -/

/-- A span for concrete examples. -/
def span0 : Span := ⟨0, 0, 0⟩

/-- An initial generator state with the parity flag clear (odd parity). -/
def state_unaligned : AsmProgram := ⟨0, false, [], [], [], []⟩

/-- The compiled output of `(mod 1 2)` from `state_unaligned`. -/
def mod_example_out : AsmProgram :=
  ⟨0, false,
   [.mov_rax_double_bits 2, .movq_xmm0_rax, .sub_rsp 16,
    .movsd_store_rsp_xmm0, .mov_rax_double_bits 1, .movq_xmm0_rax,
    .movsd_xmm1_rsp, .call "fmod", .add_rsp 16],
   [], [], []⟩

/-- An initial generator state with the parity flag set (even parity). -/
def state_aligned : AsmProgram := ⟨0, true, [], [], [], []⟩

/-- The compiled output of the equality comparison `1 = true`. -/
def cmp_eq_out : AsmProgram :=
  ⟨0, true,
   [.mov_rax_double_bits 1, .movq_xmm0_rax, .sub_rsp 8,
    .movsd_store_rsp_xmm0, .mov_eax_1, .xor_eax_eax, .add_rsp 8],
   [], [], []⟩

/-- The compiled output of the ordering comparison `1 < 2`. -/
def cmp_lt_out : AsmProgram :=
  ⟨0, true,
   [.mov_rax_double_bits 1, .movq_xmm0_rax, .sub_rsp 8,
    .movsd_store_rsp_xmm0, .mov_rax_double_bits 2, .movq_xmm0_rax,
    .movsd_xmm1_rsp, .xor_eax_eax, .ucomisd_xmm1_xmm0, .setb_al,
    .add_rsp 8],
   [], [], []⟩

/-- The function names `generate_func_call` recognizes (`expr.rs`
215–459); every other name is `Error::UnknownFunction`. -/
def known_function_names : List String :=
  ["!!", "++", "and", "or", "not", "<", "=", ">", "length", "str-length",
   "char-at", "mod", "abs", "floor", "ceil", "sqrt", "ln", "log", "e^",
   "ten^", "sin", "cos", "tan", "asin", "acos", "atan", "pressing-key",
   "to-num", "random"]

/-- State-extension invariant of the old backend's statement/expression
compilers: a successful run leaves the entry-point list unchanged, never
decreases the uid counter, and only appends to the text. -/
def X64.Ext (p p' : X64.AsmProgram) : Prop :=
  p'.entry_points = p.entry_points ∧
  p.uid_generator ≤ p'.uid_generator ∧
  ∃ tail, p'.text = p.text ++ tail

/-- The shape of the code the `"and" | "or"` loop emits for the
non-final operands: each operand is compiled to Bool and followed by
`test rax, rax` and one conditional jump to the single shared label. -/
def BoolJumpChain (is_and : Bool) (lbl : Nat) :
    Nat → List Expr → AsmProgram → AsmProgram → Prop
  | _, [], s, s' => s' = s
  | 0, _ :: _, _, _ => False
  | fuel + 1, e :: es, s, s' =>
      ∃ s₁, generate_bool_expr fuel e s = .ok () s₁ ∧
        BoolJumpChain is_and lbl fuel es
          (emit [.test_rax_rax, if is_and then .jz lbl else .jnz lbl] s₁) s'

/-- The compiled output of `(and true false true)` from `state_aligned`:
both non-final operands get `test` plus `jz` to the one shared label 0,
which is placed after the last operand. -/
def and_example_out : AsmProgram :=
  ⟨1, true,
   [.mov_eax_1, .test_rax_rax, .jz 0, .xor_eax_eax, .test_rax_rax, .jz 0,
    .mov_eax_1, .local_label 0],
   [], [], []⟩

/-! ### Arithmetic code shapes and their semantics (claim C2) -/

/-- The code `generate_lit` emits for a numeric literal. -/
def lit_double_code (q : ℚ) : List Instr :=
  [.mov_rax_double_bits q, .movq_xmm0_rax]

/-- Numeric literal operands. -/
def lits (qs : List ℚ) : List Expr := qs.map (fun q => .Lit (.Num q))

/-- The code of the additive accumulation loop over literal terms. -/
def add_acc_code : List ℚ → List Instr
  | [] => []
  | q :: qs =>
      lit_double_code q ++ [.addsd_xmm0_rsp, .movsd_store_rsp_xmm0]
        ++ add_acc_code qs

/-- The code of the multiplicative accumulation loop over literal
terms. -/
def mul_acc_code : List ℚ → List Instr
  | [] => []
  | q :: qs =>
      lit_double_code q ++ [.mulsd_xmm0_rsp, .movsd_store_rsp_xmm0]
        ++ mul_acc_code qs

/-- The code compiled for `(+ q)`: the literal, a stack round-trip, and
the reload — the value is unchanged. -/
def plus_single_code (q : ℚ) : List Instr :=
  lit_double_code q ++
    [.sub_rsp 8, .movsd_store_rsp_xmm0, .movsd_xmm0_rsp, .add_rsp 8]

/-- The code compiled for an all-negatives `AddSub`: accumulate the sum,
then flip the sign bit of the accumulator slot. -/
def addsub_neg_code (q : ℚ) (qs : List ℚ) : List Instr :=
  lit_double_code q ++ [.sub_rsp 8, .movsd_store_rsp_xmm0]
    ++ add_acc_code qs
    ++ [.mov_rax_signbit, .xor_rsp_rax, .movsd_xmm0_rsp, .add_rsp 8]

/-- The code compiled for an all-denominators `MulDiv`: accumulate the
product, then divide 1.0 by the accumulator slot. -/
def muldiv_recip_code (q : ℚ) (qs : List ℚ) : List Instr :=
  lit_double_code q ++ [.sub_rsp 8, .movsd_store_rsp_xmm0]
    ++ mul_acc_code qs
    ++ [.mov_rax_float1, .movq_xmm0_rax, .divsd_xmm0_rsp, .add_rsp 8]

/-! ### String concatenation (claim C5) -/

/-- Number of cow-release calls in an instruction sequence. -/
def countDrop (c : List Instr) : Nat := c.count (.call "drop_pop_cow")

/-- The compiled code of `(++ "ab" "cd")` from `state_aligned`. -/
def concat2_code : List Instr :=
  [.staticstr 0 "cd", .lea_rax_static 0, .mov_rdx_imm 2, .push_rdx,
   .sub_rsp 8, .push_rdx, .push_rax, .staticstr 1 "ab", .lea_rax_static 1,
   .mov_rdx_imm 2, .add_rsp24_rdx, .push_rdx, .push_rax, .mov_rdi_rsp40,
   .call_plt "malloc", .mov_rsp32_rax, .mov_rdi_rax, .mov_rsi_rsp0,
   .mov_rdx_rsp8, .call_plt "memcpy", .mov_rdi_rax, .add_rdi_rsp8,
   .mov_rsi_rsp16, .mov_rdx_rsp24, .call_plt "memcpy",
   .call "drop_pop_cow", .call "drop_pop_cow", .pop_rax, .pop_rdx]

/-- The initial machine state for running compiled string code. -/
def machine0 : StrSem.CState :=
  ⟨.junk, .junk, .junk, .junk, [], [], [], []⟩

theorem ArithSem.run_append (l₁ l₂ : List Instr) (m : ArithSem.AState) :
    run (l₁ ++ l₂) m =
      match run l₁ m with
      | some m' => run l₂ m'
      | none => none := by
  induction l₁ generalizing m with
  | nil => rfl
  | cons i is ih =>
      simp only [List.cons_append, run]
      cases step i m with
      | none => rfl
      | some m' => exact ih m'

theorem bind_apply (x : M α) (f : α → M β) (s : AsmProgram) :
    (x >>= f) s =
      match x s with
      | .ok a s' => f a s'
      | .err e => .err e
      | .panicked => .panicked
      | .spin => .spin := rfl

theorem pure_apply (a : α) (s : AsmProgram) : (pure a : M α) s = .ok a s := rfl

theorem align_pure (a : α) : AlignPres (pure a : M α) := by
  intro s r s' h
  cases h
  rfl

theorem align_throw (e : CompileError) : AlignPres (throwM e : M α) := by
  intro s r s' h
  cases h

theorem align_todo : AlignPres (todoM : M α) := by
  intro s r s' h
  cases h

theorem align_spin : AlignPres (fun _ => .spin : M α) := by
  intro s r s' h
  cases h

theorem align_bind {x : M α} {f : α → M β} (hx : AlignPres x)
    (hf : ∀ a, AlignPres (f a)) : AlignPres (x >>= f) := by
  intro s r s' h
  rw [bind_apply] at h
  cases hxs : x s with
  | ok a s₁ =>
      rw [hxs] at h
      rw [hf a s₁ r s' h, hx s a s₁ hxs]
  | err e => rw [hxs] at h; cases h
  | panicked => rw [hxs] at h; cases h
  | spin => rw [hxs] at h; cases h

theorem align_emitM (l : List Instr) : AlignPres (emitM l) := by
  intro s r s' h
  cases h
  rfl

theorem align_new_uid : AlignPres new_uid := by
  intro s r s' h
  cases h
  rfl

theorem align_get : AlignPres get_aligned := by
  intro s r s' h
  cases h
  rfl

theorem align_aligning_call (f : String) : AlignPres (aligning_call f) := by
  intro s r s' h
  unfold aligning_call at h
  by_cases hs : s.stack_aligned
  · rw [if_pos hs] at h
    cases h
    rfl
  · rw [if_neg hs] at h
    cases h
    rfl

theorem align_lookup_list (name : String) (span : Span) :
    AlignPres (lookup_list name span) := by
  intro s r s' h
  unfold lookup_list at h
  cases hl : s.lists.lookup name with
  | some id => rw [hl] at h; cases h; rfl
  | none => rw [hl] at h; cases h

theorem align_allocate_static_str (str : String) :
    AlignPres (allocate_static_str str) := by
  unfold allocate_static_str
  exact align_bind align_new_uid fun uid =>
    align_bind (align_emitM _) fun _ => align_pure _

theorem align_generate_lit (lit : Value) : AlignPres (generate_lit lit) := by
  cases lit with
  | Num q =>
      exact align_bind (align_emitM _) fun _ => align_pure _
  | Str str =>
      exact align_bind (align_allocate_static_str _) fun _ =>
        align_bind (align_emitM _) fun _ => align_pure _
  | Bool b =>
      cases b with
      | false => exact align_bind (align_emitM _) fun _ => align_pure _
      | true => exact align_bind (align_emitM _) fun _ => align_pure _

theorem align_generate_symbol (sym : String) (span : Span) :
    AlignPres (generate_symbol sym span) := by
  intro s r s' h
  unfold generate_symbol at h
  cases hp : s.proc_params.findIdx? (· = sym) with
  | some idx =>
      rw [hp] at h
      exact align_bind (align_emitM _)
        (fun _ => align_bind (align_aligning_call _) fun _ => align_pure _)
        s r s' h
  | none =>
      rw [hp] at h
      cases hv : s.vars.lookup sym with
      | some var_id =>
          rw [hv] at h
          exact align_bind (align_emitM _)
            (fun _ => align_bind (align_aligning_call _) fun _ => align_pure _)
            s r s' h
      | none => rw [hv] at h; cases h

theorem align_wrong_arg_count (span : Span) (func_name : String)
    (args : List Expr) (expected : Nat) :
    AlignPres (wrong_arg_count span func_name args expected) :=
  align_throw _

theorem tr_of_align {m : M α} (h : AlignPres m) : FlagTr m id := h

theorem align_of_tr {m : M α} {f : Bool → Bool} (h : FlagTr m f)
    (hf : ∀ b, f b = b) : AlignPres m := by
  intro s r s' hm
  rw [h s r s' hm, hf]

theorem tr_bind {x : M α} {k : α → M β} {f g : Bool → Bool}
    (hx : FlagTr x f) (hk : ∀ a, FlagTr (k a) g) :
    FlagTr (x >>= k) (g ∘ f) := by
  intro s r s' h
  rw [bind_apply] at h
  cases hxs : x s with
  | ok a s₁ =>
      rw [hxs] at h
      rw [Function.comp_apply, hk a s₁ r s' h, hx s a s₁ hxs]
  | err e => rw [hxs] at h; cases h
  | panicked => rw [hxs] at h; cases h
  | spin => rw [hxs] at h; cases h

theorem tr_flip : FlagTr flip_aligned (fun b => !b) := by
  intro s r s' h
  cases h
  rfl

theorem final_bind {x : M α} {k : α → M β} {b : Bool}
    (hk : ∀ a, FinalFlag (k a) b) : FinalFlag (x >>= k) b := by
  intro s r s' h
  rw [bind_apply] at h
  cases hxs : x s with
  | ok a s₁ => rw [hxs] at h; exact hk a s₁ r s' h
  | err e => rw [hxs] at h; cases h
  | panicked => rw [hxs] at h; cases h
  | spin => rw [hxs] at h; cases h

theorem final_set (b : Bool) : FinalFlag (set_aligned b) b := by
  intro s r s' h
  cases h
  rfl

theorem final_then_pres {x : M α} {k : α → M β} {b : Bool}
    (hx : FinalFlag x b) (hk : ∀ a, AlignPres (k a)) :
    FinalFlag (x >>= k) b := by
  intro s r s' h
  rw [bind_apply] at h
  cases hxs : x s with
  | ok a s₁ => rw [hxs] at h; rw [hk a s₁ r s' h, hx s a s₁ hxs]
  | err e => rw [hxs] at h; cases h
  | panicked => rw [hxs] at h; cases h
  | spin => rw [hxs] at h; cases h

/-- The save/restore pattern: run `m₀` (which preserves the flag), read
the flag, then run a continuation that ends by restoring the read
value. -/
theorem align_restore {m₀ : M α} {k : Bool → M β} (h₀ : AlignPres m₀)
    (hk : ∀ b, FinalFlag (k b) b) :
    AlignPres (m₀ >>= fun _ => get_aligned >>= k) := by
  intro s r s' h
  rw [bind_apply] at h
  cases h₀s : m₀ s with
  | ok a s₁ =>
      rw [h₀s] at h
      have h₁ : k s₁.stack_aligned s₁ = .ok r s' := h
      rw [hk s₁.stack_aligned s₁ r s' h₁, h₀ s a s₁ h₀s]
  | err e => rw [h₀s] at h; cases h
  | panicked => rw [h₀s] at h; cases h
  | spin => rw [h₀s] at h; cases h

theorem tr_todo {f : Bool → Bool} : FlagTr (todoM : M α) f := by
  intro s r s' h
  cases h

theorem final_spin {b : Bool} : FinalFlag (fun _ => .spin : M α) b := by
  intro s r s' h
  cases h

/-! ### Per-fuel-step alignment lemmas for each mutual generator -/

theorem step_align_pos_loop (n : Nat)
    (ihD : ∀ e, AlignPres (generate_double_expr n e))
    (ihSelf : ∀ ts, AlignPres (add_sub_pos_loop n ts)) :
    ∀ ts, AlignPres (add_sub_pos_loop (n + 1) ts) := by
  intro ts
  cases ts with
  | nil => exact align_pure _
  | cons t ts =>
      exact align_bind (ihD t) fun _ =>
        align_bind (align_emitM _) fun _ => ihSelf ts

theorem step_align_neg_loop (n : Nat)
    (ihD : ∀ e, AlignPres (generate_double_expr n e))
    (ihSelf : ∀ ts, AlignPres (add_sub_neg_loop n ts)) :
    ∀ ts, AlignPres (add_sub_neg_loop (n + 1) ts) := by
  intro ts
  cases ts with
  | nil => exact align_pure _
  | cons t ts =>
      exact align_bind (ihD t) fun _ =>
        align_bind (align_emitM _) fun _ => ihSelf ts

theorem step_align_num_loop (n : Nat)
    (ihD : ∀ e, AlignPres (generate_double_expr n e))
    (ihSelf : ∀ ts, AlignPres (mul_div_num_loop n ts)) :
    ∀ ts, AlignPres (mul_div_num_loop (n + 1) ts) := by
  intro ts
  cases ts with
  | nil => exact align_pure _
  | cons t ts =>
      exact align_bind (ihD t) fun _ =>
        align_bind (align_emitM _) fun _ => ihSelf ts

theorem step_align_den_loop (n : Nat)
    (ihD : ∀ e, AlignPres (generate_double_expr n e))
    (ihSelf : ∀ ts, AlignPres (mul_div_den_loop n ts)) :
    ∀ ts, AlignPres (mul_div_den_loop (n + 1) ts) := by
  intro ts
  cases ts with
  | nil => exact align_pure _
  | cons t ts =>
      exact align_bind (ihD t) fun _ =>
        align_bind (align_emitM _) fun _ => ihSelf ts

theorem step_align_add_sub (n : Nat)
    (ihD : ∀ e, AlignPres (generate_double_expr n e))
    (ihP : ∀ ts, AlignPres (add_sub_pos_loop n ts))
    (ihN : ∀ ts, AlignPres (add_sub_neg_loop n ts)) :
    ∀ ps ns, AlignPres (generate_add_sub (n + 1) ps ns) := by
  intro ps ns
  match ps, ns with
  | [], [] =>
      exact align_bind (align_emitM _) fun _ => align_pure _
  | initial :: ps, ns =>
      refine align_of_tr
        (tr_bind (tr_of_align (ihD initial)) fun _ =>
         tr_bind (tr_of_align (align_emitM _)) fun _ =>
         tr_bind tr_flip fun _ =>
         tr_bind (tr_of_align (ihP ps)) fun _ =>
         tr_bind (tr_of_align (ihN ns)) fun _ =>
         tr_bind (tr_of_align (align_emitM _)) fun _ =>
         tr_bind tr_flip fun _ => tr_of_align (align_pure _)) ?_
      intro b
      cases b <;> rfl
  | [], initial :: ns =>
      refine align_of_tr
        (tr_bind (tr_of_align (ihD initial)) fun _ =>
         tr_bind (tr_of_align (align_emitM _)) fun _ =>
         tr_bind tr_flip fun _ =>
         tr_bind (tr_of_align (ihP ns)) fun _ =>
         tr_bind (tr_of_align (align_emitM _)) fun _ =>
         tr_bind tr_flip fun _ => tr_of_align (align_pure _)) ?_
      intro b
      cases b <;> rfl

theorem step_align_mul_div (n : Nat)
    (ihD : ∀ e, AlignPres (generate_double_expr n e))
    (ihP : ∀ ts, AlignPres (mul_div_num_loop n ts))
    (ihN : ∀ ts, AlignPres (mul_div_den_loop n ts)) :
    ∀ ps ns, AlignPres (generate_mul_div (n + 1) ps ns) := by
  intro ps ns
  match ps, ns with
  | [], [] =>
      exact align_bind (align_generate_lit _) fun _ => align_pure _
  | initial :: ps, ns =>
      refine align_of_tr
        (tr_bind (tr_of_align (ihD initial)) fun _ =>
         tr_bind (tr_of_align (align_emitM _)) fun _ =>
         tr_bind tr_flip fun _ =>
         tr_bind (tr_of_align (ihP ps)) fun _ =>
         tr_bind (tr_of_align (ihN ns)) fun _ =>
         tr_bind (tr_of_align (align_emitM _)) fun _ =>
         tr_bind tr_flip fun _ => tr_of_align (align_pure _)) ?_
      intro b
      cases b <;> rfl
  | [], initial :: ns =>
      refine align_of_tr
        (tr_bind (tr_of_align (ihD initial)) fun _ =>
         tr_bind (tr_of_align (align_emitM _)) fun _ =>
         tr_bind tr_flip fun _ =>
         tr_bind (tr_of_align (ihP ns)) fun _ =>
         tr_bind (tr_of_align (align_emitM _)) fun _ =>
         tr_bind tr_flip fun _ => tr_of_align (align_pure _)) ?_
      intro b
      cases b <;> rfl

theorem step_align_double (n : Nat)
    (ihE : ∀ e, AlignPres (generate_expr n e)) :
    ∀ e, AlignPres (generate_double_expr (n + 1) e) := by
  intro e
  refine align_bind (ihE e) fun t => ?_
  cases t with
  | Double => exact align_pure _
  | Bool => exact align_aligning_call _
  | StaticStr => exact align_aligning_call _
  | OwnedString => exact align_aligning_call _
  | Any =>
      exact align_bind (align_emitM _) fun _ => align_aligning_call _

theorem step_align_bool (n : Nat)
    (ihE : ∀ e, AlignPres (generate_expr n e)) :
    ∀ e, AlignPres (generate_bool_expr (n + 1) e) := by
  intro e
  refine align_bind (ihE e) fun t => ?_
  cases t with
  | Double => exact align_aligning_call _
  | Bool => exact align_pure _
  | StaticStr => exact align_aligning_call _
  | OwnedString => exact align_aligning_call _
  | Any => exact align_aligning_call _

theorem step_align_cow (n : Nat)
    (ihE : ∀ e, AlignPres (generate_expr n e)) :
    ∀ e, AlignPres (generate_cow_expr (n + 1) e) := by
  intro e
  refine align_bind (ihE e) fun t => ?_
  cases t with
  | Double => exact align_aligning_call _
  | Bool => exact align_aligning_call _
  | StaticStr => exact align_pure _
  | OwnedString => exact align_pure _
  | Any =>
      exact align_bind (align_emitM _) fun _ => align_aligning_call _

theorem step_align_any (n : Nat)
    (ihE : ∀ e, AlignPres (generate_expr n e)) :
    ∀ e, AlignPres (generate_any_expr (n + 1) e) := by
  intro e
  refine align_bind (ihE e) fun t => ?_
  cases t with
  | Double => exact align_emitM _
  | Bool => exact align_pure _
  | StaticStr => exact align_pure _
  | OwnedString => exact align_pure _
  | Any => exact align_pure _

theorem step_align_mathop (n : Nat)
    (ihD : ∀ e, AlignPres (generate_double_expr n e)) :
    ∀ span f args code, AlignPres (mathop (n + 1) span f args code) := by
  intro span f args code
  match args with
  | [operand] =>
      exact align_bind (ihD operand) fun _ =>
        align_bind (align_emitM _) fun _ => align_pure _
  | [] => exact align_wrong_arg_count _ _ _ _
  | _ :: _ :: _ => exact align_wrong_arg_count _ _ _ _

theorem step_align_libc_mathop (n : Nat)
    (ihD : ∀ e, AlignPres (generate_double_expr n e)) :
    ∀ span f args libc, AlignPres (libc_mathop (n + 1) span f args libc) := by
  intro span f args libc
  match args with
  | [operand] =>
      exact align_bind (ihD operand) fun _ =>
        align_bind (align_emitM _) fun _ => align_pure _
  | [] => exact align_wrong_arg_count _ _ _ _
  | _ :: _ :: _ => exact align_wrong_arg_count _ _ _ _

theorem step_align_bool_jump_loop (n : Nat)
    (ihB : ∀ e, AlignPres (generate_bool_expr n e))
    (ihSelf : ∀ b lbl ts, AlignPres (bool_jump_loop n b lbl ts)) :
    ∀ b lbl ts, AlignPres (bool_jump_loop (n + 1) b lbl ts) := by
  intro b lbl ts
  cases ts with
  | nil => exact align_pure _
  | cons t ts =>
      exact align_bind (ihB t) fun _ =>
        align_bind (align_emitM _) fun _ => ihSelf b lbl ts

theorem step_align_concat_loop (n : Nat)
    (ihC : ∀ e, AlignPres (generate_cow_expr n e))
    (ihSelf : ∀ ts, AlignPres (concat_loop n ts)) :
    ∀ ts, AlignPres (concat_loop (n + 1) ts) := by
  intro ts
  cases ts with
  | nil => exact align_pure _
  | cons t ts =>
      exact align_bind (ihSelf ts) fun _ =>
        align_bind (align_emitM _) fun _ =>
        align_bind (ihC t) fun _ => align_emitM _

/-- Save/restore with a three-part prefix (the `char-at` shape). -/
theorem align_restore3 {m₀ : M α} {m₁ : M β} {m₂ : M γ} {k : Bool → M δ}
    (h₀ : AlignPres m₀) (h₁ : AlignPres m₁) (h₂ : AlignPres m₂)
    (hk : ∀ b, FinalFlag (k b) b) :
    AlignPres (m₀ >>= fun _ => m₁ >>= fun _ => m₂ >>= fun _ =>
      get_aligned >>= k) := by
  refine align_bind h₀ fun _ => align_bind h₁ fun _ => ?_
  exact align_restore h₂ hk

theorem step_align_func_call (n : Nat)
    (ihE : ∀ e, AlignPres (generate_expr n e))
    (ihD : ∀ e, AlignPres (generate_double_expr n e))
    (ihB : ∀ e, AlignPres (generate_bool_expr n e))
    (ihC : ∀ e, AlignPres (generate_cow_expr n e))
    (ihA : ∀ e, AlignPres (generate_any_expr n e))
    (ihCmp : ∀ ord lhs rhs, AlignPres (generate_comparison n ord lhs rhs))
    (ihJump : ∀ b lbl ts, AlignPres (bool_jump_loop n b lbl ts))
    (ihMath : ∀ sp f args code, AlignPres (mathop n sp f args code))
    (ihLibc : ∀ sp f args libc, AlignPres (libc_mathop n sp f args libc)) :
    ∀ f sp args, AlignPres (generate_func_call (n + 1) f sp args) := by
  intro f sp args s r s' h
  simp only [generate_func_call] at h
  split at h
  all_goals try split at h
  all_goals try split at h
  all_goals
    first
    | exact align_wrong_arg_count _ _ _ _ s r s' h
    | exact align_throw _ s r s' h
    | exact align_todo s r s' h
    | exact ihE _ s r s' h
    | exact ihCmp _ _ _ s r s' h
    | exact ihMath _ _ _ _ s r s' h
    | exact ihLibc _ _ _ _ s r s' h
    | exact align_generate_lit _ s r s' h
    | exact align_bind (align_emitM _) (fun _ => align_pure _) s r s' h
    | exact align_bind (align_lookup_list _ _) (fun _ =>
        align_bind (ihA _) fun _ =>
        align_bind (align_emitM _) fun _ =>
        align_bind (align_aligning_call _) fun _ => align_pure _) s r s' h
    | exact align_bind (align_lookup_list _ _) (fun _ =>
        align_bind (align_emitM _) fun _ => align_pure _) s r s' h
    | exact align_bind (ihB _) (fun _ =>
        align_bind (align_emitM _) fun _ => align_pure _) s r s' h
    | exact align_bind (ihD _) (fun _ => align_pure _) s r s' h
    | exact align_bind align_new_uid (fun lbl =>
        align_bind (ihJump _ lbl _) fun _ =>
        align_bind (ihB _) fun _ =>
        align_bind (align_emitM _) fun _ => align_pure _) s r s' h
    | exact align_restore (ihC _) (fun w => by
        cases w <;>
        exact final_bind fun _ => final_bind fun _ => final_bind fun _ =>
          final_bind fun _ =>
          final_then_pres (final_set _) fun _ => align_pure _) s r s' h
    | exact align_restore (ihD _) (fun w => by
        cases w <;>
        exact final_bind fun _ => final_bind fun _ => final_bind fun _ =>
          final_bind fun _ => final_bind fun _ => final_bind fun _ =>
          final_then_pres (final_set _) fun _ => align_pure _) s r s' h
    | exact align_restore3 (ihC _) (align_emitM _) (ihD _) (fun w => by
        cases w <;>
        exact final_bind fun _ => final_bind fun _ => final_bind fun _ =>
          final_bind fun _ =>
          final_then_pres (final_set _) fun _ => align_pure _) s r s' h

theorem step_align_comparison (n : Nat)
    (ihE : ∀ e, AlignPres (generate_expr n e)) :
    ∀ ord lhs rhs, AlignPres (generate_comparison (n + 1) ord lhs rhs) := by
  intro ord lhs rhs
  cases ord with
  | lt =>
      exact align_of_tr
        (tr_bind (tr_of_align (ihE _)) fun t =>
          match t with
          | .Double =>
              tr_bind (tr_of_align (align_emitM _)) fun _ =>
              tr_bind tr_flip fun _ =>
              tr_bind (tr_of_align (ihE _)) fun t2 =>
                match t2 with
                | .Double =>
                    tr_bind (tr_of_align (align_emitM _)) fun _ =>
                    tr_bind (tr_of_align (align_emitM _)) fun _ =>
                    tr_bind tr_flip fun _ => tr_of_align (align_pure _)
                | .Bool => tr_todo
                | .StaticStr => tr_todo
                | .OwnedString => tr_todo
                | .Any => tr_todo
          | .Bool => tr_todo
          | .StaticStr => tr_todo
          | .OwnedString => tr_todo
          | .Any => tr_todo)
        (by intro b; cases b <;> rfl)
  | eq =>
      exact align_of_tr
        (tr_bind (tr_of_align (ihE _)) fun t =>
          match t with
          | .Double =>
              tr_bind (tr_of_align (align_emitM _)) fun _ =>
              tr_bind tr_flip fun _ =>
              tr_bind (tr_of_align (ihE _)) fun t2 =>
                match t2 with
                | .Double =>
                    tr_bind (tr_of_align (align_emitM _)) fun _ =>
                    tr_bind (tr_of_align (align_emitM _)) fun _ =>
                    tr_bind tr_flip fun _ => tr_of_align (align_pure _)
                | .Bool =>
                    tr_bind (tr_of_align (align_emitM _)) fun _ =>
                    tr_bind (tr_of_align (align_emitM _)) fun _ =>
                    tr_bind tr_flip fun _ => tr_of_align (align_pure _)
                | .StaticStr => tr_todo
                | .OwnedString => tr_todo
                | .Any => tr_todo
          | .Bool => tr_todo
          | .StaticStr => tr_todo
          | .OwnedString => tr_todo
          | .Any => tr_todo)
        (by intro b; cases b <;> rfl)
  | gt =>
      exact align_of_tr
        (tr_bind (tr_of_align (ihE _)) fun t =>
          match t with
          | .Double =>
              tr_bind (tr_of_align (align_emitM _)) fun _ =>
              tr_bind tr_flip fun _ =>
              tr_bind (tr_of_align (ihE _)) fun t2 =>
                match t2 with
                | .Double =>
                    tr_bind (tr_of_align (align_emitM _)) fun _ =>
                    tr_bind (tr_of_align (align_emitM _)) fun _ =>
                    tr_bind tr_flip fun _ => tr_of_align (align_pure _)
                | .Bool => tr_todo
                | .StaticStr => tr_todo
                | .OwnedString => tr_todo
                | .Any => tr_todo
          | .Bool => tr_todo
          | .StaticStr => tr_todo
          | .OwnedString => tr_todo
          | .Any => tr_todo)
        (by intro b; cases b <;> rfl)

/-- Master alignment lemma: every generator function preserves the
stack-alignment parity flag on every successful run, for every fuel. -/
theorem align_master : ∀ fuel : Nat,
    (∀ e, AlignPres (generate_expr fuel e)) ∧
    (∀ ps ns, AlignPres (generate_add_sub fuel ps ns)) ∧
    (∀ ts, AlignPres (add_sub_pos_loop fuel ts)) ∧
    (∀ ts, AlignPres (add_sub_neg_loop fuel ts)) ∧
    (∀ ps ns, AlignPres (generate_mul_div fuel ps ns)) ∧
    (∀ ts, AlignPres (mul_div_num_loop fuel ts)) ∧
    (∀ ts, AlignPres (mul_div_den_loop fuel ts)) ∧
    (∀ f sp args, AlignPres (generate_func_call fuel f sp args)) ∧
    (∀ e, AlignPres (generate_double_expr fuel e)) ∧
    (∀ e, AlignPres (generate_bool_expr fuel e)) ∧
    (∀ e, AlignPres (generate_cow_expr fuel e)) ∧
    (∀ e, AlignPres (generate_any_expr fuel e)) ∧
    (∀ ord l r, AlignPres (generate_comparison fuel ord l r)) ∧
    (∀ b lbl ts, AlignPres (bool_jump_loop fuel b lbl ts)) ∧
    (∀ sp f args code, AlignPres (mathop fuel sp f args code)) ∧
    (∀ sp f args libc, AlignPres (libc_mathop fuel sp f args libc)) := by
  intro fuel
  induction fuel with
  | zero =>
      exact ⟨fun _ => align_spin, fun _ _ => align_spin, fun _ => align_spin,
        fun _ => align_spin, fun _ _ => align_spin, fun _ => align_spin,
        fun _ => align_spin, fun _ _ _ => align_spin, fun _ => align_spin,
        fun _ => align_spin, fun _ => align_spin, fun _ => align_spin,
        fun _ _ _ => align_spin, fun _ _ _ => align_spin,
        fun _ _ _ _ => align_spin, fun _ _ _ _ => align_spin⟩
  | succ n ih =>
      obtain ⟨ihE, ihAS, ihPL, ihNL, ihMD, ihNuL, ihDeL, ihFC, ihD, ihB,
        ihC, ihA, ihCmp, ihJump, ihMath, ihLibc⟩ := ih
      refine ⟨?_, ?_, ?_, ?_, ?_, ?_, ?_, ?_, ?_, ?_, ?_, ?_, ?_, ?_, ?_, ?_⟩
      · intro e
        cases e with
        | Lit lit => exact align_generate_lit lit
        | Sym sym span => exact align_generate_symbol sym span
        | FuncCall f sp args => exact ihFC f sp args
        | AddSub ps ns => exact ihAS ps ns
        | MulDiv ps ns => exact ihMD ps ns
      · exact step_align_add_sub n ihD ihPL ihNL
      · exact step_align_pos_loop n ihD ihPL
      · exact step_align_neg_loop n ihD ihNL
      · exact step_align_mul_div n ihD ihNuL ihDeL
      · exact step_align_num_loop n ihD ihNuL
      · exact step_align_den_loop n ihD ihDeL
      · exact step_align_func_call n ihE ihD ihB ihC ihA ihCmp ihJump
          ihMath ihLibc
      · exact step_align_double n ihE
      · exact step_align_bool n ihE
      · exact step_align_cow n ihE
      · exact step_align_any n ihE
      · exact step_align_comparison n ihE
      · exact step_align_bool_jump_loop n ihB ihJump
      · exact step_align_mathop n ihD
      · exact step_align_libc_mathop n ihD

theorem emit_uid (l : List Instr) (s : AsmProgram) :
    (emit l s).uid_generator = s.uid_generator := rfl

theorem emit_aligned (l : List Instr) (s : AsmProgram) :
    (emit l s).stack_aligned = s.stack_aligned := rfl

theorem emit_code (l : List Instr) (s : AsmProgram) :
    (emit l s).code = s.code ++ l := rfl

theorem emit_params (l : List Instr) (s : AsmProgram) :
    (emit l s).proc_params = s.proc_params := rfl

theorem emit_vars (l : List Instr) (s : AsmProgram) :
    (emit l s).vars = s.vars := rfl

theorem emit_lists (l : List Instr) (s : AsmProgram) :
    (emit l s).lists = s.lists := rfl

theorem bind_ok_iff {x : M α} {f : α → M β} {s : AsmProgram} {r : β}
    {s' : AsmProgram} :
    (x >>= f) s = .ok r s' ↔ ∃ a s₁, x s = .ok a s₁ ∧ f a s₁ = .ok r s' := by
  constructor
  · intro h
    rw [bind_apply] at h
    cases hx : x s with
    | ok a s₁ => rw [hx] at h; exact ⟨a, s₁, rfl, h⟩
    | err e => rw [hx] at h; cases h
    | panicked => rw [hx] at h; cases h
    | spin => rw [hx] at h; cases h
  · rintro ⟨a, s₁, hx, hf⟩
    rw [bind_apply, hx]
    exact hf

theorem align_expr_all (fuel : Nat) :
    ∀ e, AlignPres (generate_expr fuel e) := (align_master fuel).1

theorem align_double_all (fuel : Nat) :
    ∀ e, AlignPres (generate_double_expr fuel e) :=
  (align_master fuel).2.2.2.2.2.2.2.2.1

theorem align_bool_all (fuel : Nat) :
    ∀ e, AlignPres (generate_bool_expr fuel e) :=
  (align_master fuel).2.2.2.2.2.2.2.2.2.1

theorem align_cow_all (fuel : Nat) :
    ∀ e, AlignPres (generate_cow_expr fuel e) :=
  (align_master fuel).2.2.2.2.2.2.2.2.2.2.1

/-! ## Claim theorems -/

/-- C1: for every expression the Expression Generator compiles
successfully, the stack-alignment parity flag after compilation equals its
value before compilation — every stack reservation the generator emits is
balanced by a matching release on the same compiled path, so no pushes are
outstanding at the expression's end. -/
theorem generate_expr_preserves_stack_aligned
    (fuel : Nat) (e : Expr) (s : AsmProgram) (t : Typ) (s' : AsmProgram)
    (h : generate_expr fuel e s = .ok t s') :
    s'.stack_aligned = s.stack_aligned :=
  align_expr_all fuel e s t s' h

/-- C1 witness: compiling `(mod 1 2)` from an odd-parity state succeeds
and the theorem instantiates there, giving parity preservation. -/
theorem generate_expr_preserves_stack_aligned_witness :
    generate_expr 6 (.FuncCall "mod" span0 [.Lit (.Num 1), .Lit (.Num 2)])
        state_unaligned = .ok .Double mod_example_out ∧
    mod_example_out.stack_aligned = state_unaligned.stack_aligned :=
  ⟨rfl,
   generate_expr_preserves_stack_aligned 6
     (.FuncCall "mod" span0 [.Lit (.Num 1), .Lit (.Num 2)])
     state_unaligned .Double mod_example_out rfl⟩

/-- C3: compiling the comparison `(> a b)` produces exactly the same
outcome — instruction sequence, state and result representation — as
compiling `(< b a)`, for every pair of operand expressions and every
starting state: a "greater" request is canonicalized by swapping its
operands and compiling as "less". -/
theorem greater_compiles_as_swapped_less
    (fuel : Nat) (a b : Expr) (sp : Span) (s : AsmProgram) :
    generate_expr fuel (.FuncCall ">" sp [a, b]) s =
    generate_expr fuel (.FuncCall "<" sp [b, a]) s := by
  cases fuel with
  | zero => rfl
  | succ n =>
    cases n with
    | zero => rfl
    | succ m =>
      cases m with
      | zero => rfl
      | succ k => rfl

/-- C10: compiling `(mod lhs rhs)` emits the code for `rhs` (the divisor)
first, then the code for `lhs`, coerces each operand to Double via
`generate_double_expr`, produces a Double via `call fmod`, and restores
the stack-alignment flag to its pre-expression value. -/
theorem mod_compiles_divisor_first
    (n : Nat) (lhs rhs : Expr) (sp : Span) (s : AsmProgram)
    (t : Typ) (s' : AsmProgram)
    (h : generate_func_call (n + 1) "mod" sp [lhs, rhs] s = .ok t s') :
    t = .Double ∧
    s'.stack_aligned = s.stack_aligned ∧
    ∃ s₁ s₂,
      generate_double_expr n rhs s = .ok () s₁ ∧
      generate_double_expr n lhs
        (emit [.movsd_store_rsp_xmm0]
          { emit [.sub_rsp (if s₁.stack_aligned then 8 else 16)] s₁ with
              stack_aligned := true }) = .ok () s₂ ∧
      s' = { emit [.add_rsp (if s₁.stack_aligned then 8 else 16)]
               (emit [.movsd_xmm1_rsp, .call "fmod"] s₂) with
               stack_aligned := s₁.stack_aligned } := by
  simp only [generate_func_call] at h
  rw [bind_ok_iff] at h
  obtain ⟨u1, s₁, h1, h⟩ := h
  rw [bind_ok_iff] at h
  obtain ⟨w, sw, hw, h⟩ := h
  simp only [get_aligned] at hw
  cases hw
  rw [bind_ok_iff] at h
  obtain ⟨u2, sa, ha, h⟩ := h
  simp only [emitM] at ha
  cases ha
  rw [bind_ok_iff] at h
  obtain ⟨u3, sb, hb, h⟩ := h
  simp only [set_aligned] at hb
  cases hb
  rw [bind_ok_iff] at h
  obtain ⟨u4, sc, hc, h⟩ := h
  simp only [emitM] at hc
  cases hc
  rw [bind_ok_iff] at h
  obtain ⟨u5, s₂, h2, h⟩ := h
  rw [bind_ok_iff] at h
  obtain ⟨u6, sd, hd, h⟩ := h
  simp only [emitM] at hd
  cases hd
  rw [bind_ok_iff] at h
  obtain ⟨u7, se, he, h⟩ := h
  simp only [emitM] at he
  cases he
  rw [bind_ok_iff] at h
  obtain ⟨u8, sf, hf, h⟩ := h
  simp only [set_aligned] at hf
  cases hf
  rw [pure_apply] at h
  cases h
  refine ⟨rfl, ?_, s₁, s₂, h1, h2, rfl⟩
  exact align_double_all n rhs s u1 s₁ h1

/-- C10 witness: instantiating the theorem at `(mod 1 2)` from the
odd-parity start state. -/
theorem mod_compiles_divisor_first_witness :
    generate_func_call 5 "mod" span0 [.Lit (.Num 1), .Lit (.Num 2)]
        state_unaligned = .ok .Double mod_example_out ∧
    (.Double : Typ) = .Double ∧
    mod_example_out.stack_aligned = state_unaligned.stack_aligned :=
  ⟨rfl,
   (mod_compiles_divisor_first 4 (.Lit (.Num 1)) (.Lit (.Num 2)) span0
     state_unaligned .Double mod_example_out rfl).1,
   (mod_compiles_divisor_first 4 (.Lit (.Num 1)) (.Lit (.Num 2)) span0
     state_unaligned .Double mod_example_out rfl).2.1⟩

/-- C7: comparison kind coverage.  Strict ordering is compiled only when
both operands produce representation Double: with a non-Double left
operand, or a Double left and Bool right operand, compiling `<` panics
(`todo!()`).  When the left operand compiles to Double and the right to
Bool, an equality comparison emits only the constant-false
materialization `xor eax, eax` and the stack release `add rsp, 8` after
the operands — no conversion-helper call is appended by the comparison.
When both operands compile to Double, `<` succeeds with the
`ucomisd`/`setb` block. -/
theorem comparison_kind_coverage (n : Nat) (lhs rhs : Expr)
    (s : AsmProgram) :
    (∀ tL s₁, generate_expr n lhs s = .ok tL s₁ → tL ≠ .Double →
      generate_comparison (n + 1) .lt lhs rhs s = .panicked) ∧
    (∀ s₁ s₂, generate_expr n lhs s = .ok .Double s₁ →
      generate_expr n rhs
        { emit [.sub_rsp 8, .movsd_store_rsp_xmm0] s₁ with
            stack_aligned := !s₁.stack_aligned } = .ok .Bool s₂ →
      generate_comparison (n + 1) .lt lhs rhs s = .panicked) ∧
    (∀ s₁ s₂, generate_expr n lhs s = .ok .Double s₁ →
      generate_expr n rhs
        { emit [.sub_rsp 8, .movsd_store_rsp_xmm0] s₁ with
            stack_aligned := !s₁.stack_aligned } = .ok .Bool s₂ →
      generate_comparison (n + 1) .eq lhs rhs s =
        .ok .Bool { emit [.add_rsp 8] (emit [.xor_eax_eax] s₂) with
          stack_aligned := !s₂.stack_aligned }) ∧
    (∀ s₁ s₂, generate_expr n lhs s = .ok .Double s₁ →
      generate_expr n rhs
        { emit [.sub_rsp 8, .movsd_store_rsp_xmm0] s₁ with
            stack_aligned := !s₁.stack_aligned } = .ok .Double s₂ →
      generate_comparison (n + 1) .lt lhs rhs s =
        .ok .Bool { emit [.add_rsp 8]
          (emit [.movsd_xmm1_rsp, .xor_eax_eax, .ucomisd_xmm1_xmm0,
                 .setb_al] s₂) with
          stack_aligned := !s₂.stack_aligned }) := by
  refine ⟨?_, ?_, ?_, ?_⟩
  · intro tL s₁ h1 hne
    simp only [generate_comparison]
    rw [show (if Ordering.lt = Ordering.gt then (Ordering.lt, rhs, lhs)
          else (Ordering.lt, lhs, rhs)) = (Ordering.lt, lhs, rhs) from rfl]
    simp only [bind_apply, h1]
    cases tL with
    | Double => exact absurd rfl hne
    | Bool => rfl
    | StaticStr => rfl
    | OwnedString => rfl
    | Any => rfl
  · intro s₁ s₂ h1 h2
    simp only [generate_comparison]
    rw [show (if Ordering.lt = Ordering.gt then (Ordering.lt, rhs, lhs)
          else (Ordering.lt, lhs, rhs)) = (Ordering.lt, lhs, rhs) from rfl]
    simp only [bind_apply, emitM, flip_aligned, pure_apply, h1, emit_uid,
      emit_aligned, emit_code, emit_params, emit_vars, emit_lists] at h2 ⊢
    rw [h2]
    rfl
  · intro s₁ s₂ h1 h2
    simp only [generate_comparison]
    rw [show (if Ordering.eq = Ordering.gt then (Ordering.lt, rhs, lhs)
          else (Ordering.eq, lhs, rhs)) = (Ordering.eq, lhs, rhs) from rfl]
    simp only [bind_apply, emitM, flip_aligned, pure_apply, h1, emit_uid,
      emit_aligned, emit_code, emit_params, emit_vars, emit_lists] at h2 ⊢
    rw [h2]
    rfl
  · intro s₁ s₂ h1 h2
    simp only [generate_comparison]
    rw [show (if Ordering.lt = Ordering.gt then (Ordering.lt, rhs, lhs)
          else (Ordering.lt, lhs, rhs)) = (Ordering.lt, lhs, rhs) from rfl]
    simp only [bind_apply, emitM, flip_aligned, pure_apply, h1, emit_uid,
      emit_aligned, emit_code, emit_params, emit_vars, emit_lists] at h2 ⊢
    rw [h2]
    rfl

/-- C7 witness: all four parts of the coverage theorem instantiated at
concrete literal operands. -/
theorem comparison_kind_coverage_witness :
    generate_comparison 3 .lt (.Lit (.Bool true)) (.Lit (.Num 1))
        state_aligned = .panicked ∧
    generate_comparison 3 .lt (.Lit (.Num 1)) (.Lit (.Bool true))
        state_aligned = .panicked ∧
    generate_comparison 3 .eq (.Lit (.Num 1)) (.Lit (.Bool true))
        state_aligned = .ok .Bool cmp_eq_out ∧
    generate_comparison 3 .lt (.Lit (.Num 1)) (.Lit (.Num 2))
        state_aligned = .ok .Bool cmp_lt_out :=
  ⟨(comparison_kind_coverage 2 (.Lit (.Bool true)) (.Lit (.Num 1))
      state_aligned).1 .Bool _ rfl (by decide),
   (comparison_kind_coverage 2 (.Lit (.Num 1)) (.Lit (.Bool true))
      state_aligned).2.1 _ _ rfl rfl,
   (comparison_kind_coverage 2 (.Lit (.Num 1)) (.Lit (.Bool true))
      state_aligned).2.2.1 _ _ rfl rfl,
   (comparison_kind_coverage 2 (.Lit (.Num 1)) (.Lit (.Num 2))
      state_aligned).2.2.2 _ _ rfl rfl⟩

/-- C6 counterexample: compiling a `when-flag-clicked` procedure that has
a parameter panics — `generate_proc` enforces the entry-procedure
signature with `assert!(proc.params.is_empty())` — and in particular does
not return an error value carrying a source span, contradicting the claim
that every surfaced error kind is a returned error value. -/
theorem entry_proc_param_check_panics :
    X64.generate_proc 4 "when-flag-clicked" ⟨["x"], .Do []⟩
        X64.empty_program = .panicked ∧
    ∀ e, X64.generate_proc 4 "when-flag-clicked" ⟨["x"], .Do []⟩
        X64.empty_program ≠ .err e := by
  refine ⟨rfl, ?_⟩
  intro e h
  exact X64.Out.noConfusion h

/-- C6 (amended): unresolved symbol references, wrong argument counts for
known functions and unknown function names are reported as returned error
values carrying the offending source span and abort compilation; a
malformed entry-procedure signature (parameters on `when-flag-clicked`),
however, is enforced by an assertion that panics rather than returning a
spanned error. -/
theorem error_kinds_surfaced
    : (∀ (sym : String) (sp : Span) (s : AsmProgram),
        s.proc_params.findIdx? (· = sym) = none →
        s.vars.lookup sym = none →
        generate_symbol sym sp s = .err (.UnknownVarOrList sp sym)) ∧
      (∀ (n : Nat) (sp : Span) (args : List Expr) (s : AsmProgram),
        args.length ≠ 1 →
        generate_func_call (n + 1) "not" sp args s =
          .err (.FunctionWrongArgCount sp "not" 1 args.length)) ∧
      (∀ (n : Nat) (f : String) (sp : Span) (args : List Expr)
         (s : AsmProgram), f ∉ known_function_names →
        generate_func_call (n + 1) f sp args s =
          .err (.UnknownFunction sp f)) ∧
      (∀ (fuel : Nat) (proc : Procedure) (p : X64.AsmProgram),
        proc.params ≠ [] →
        X64.generate_proc fuel "when-flag-clicked" proc p = .panicked) := by
  refine ⟨?_, ?_, ?_, ?_⟩
  · intro sym sp s hp hv
    unfold generate_symbol
    rw [hp, hv]
  · intro n sp args s hlen
    match args with
    | [] => rfl
    | [operand] => exact absurd rfl hlen
    | _ :: _ :: _ => rfl
  · intro n f sp args s hf
    simp only [generate_func_call]
    split
    all_goals first
      | rfl
      | exact absurd (by decide) hf
  · intro fuel proc p hne
    simp only [X64.generate_proc]
    rw [if_neg hne]

/-- C6 witness: the amended theorem instantiated at concrete inputs for
each of the four error sites. -/
theorem error_kinds_surfaced_witness :
    generate_symbol "shadow" span0 state_aligned =
      .err (.UnknownVarOrList span0 "shadow") ∧
    generate_func_call 1 "not" span0 [] state_aligned =
      .err (.FunctionWrongArgCount span0 "not" 1 0) ∧
    generate_func_call 1 "frobnicate" span0 [] state_aligned =
      .err (.UnknownFunction span0 "frobnicate") ∧
    X64.generate_proc 2 "when-flag-clicked" ⟨["x"], .Do []⟩
      X64.empty_program = .panicked :=
  ⟨error_kinds_surfaced.1 "shadow" span0 state_aligned rfl rfl,
   error_kinds_surfaced.2.1 0 span0 [] state_aligned (by decide),
   error_kinds_surfaced.2.2.1 0 "frobnicate" span0 [] state_aligned
     (by decide),
   error_kinds_surfaced.2.2.2 2 ⟨["x"], .Do []⟩ X64.empty_program
     (by simp)⟩

/-- C9 counterexample: the static string table does not intern by
content — allocating the same literal content twice yields two distinct
labels, with the byte data emitted once per call. -/
theorem allocate_static_str_no_interning :
    (X64.allocate_static_str "ab" X64.empty_program).1 = 0 ∧
    (X64.allocate_static_str "ab"
       (X64.allocate_static_str "ab" X64.empty_program).2).1 = 1 ∧
    (0 : Nat) ≠ 1 ∧
    (X64.allocate_static_str "ab"
       (X64.allocate_static_str "ab" X64.empty_program).2).2.text =
      [.staticstr 0 "ab", .staticstr 1 "ab"] :=
  ⟨rfl, rfl, by decide, rfl⟩

/-- C9 (amended): `allocate_static_str` allocates a fresh label from the
uid generator on every call and writes the content's data line into the
output each time; two calls — identical content or not — always yield
distinct labels, so identical literals are duplicated, not shared. -/
theorem allocate_static_str_fresh_label (s : X64.AsmProgram)
    (c₁ c₂ : String) :
    X64.allocate_static_str c₁ s =
      (s.uid_generator,
       { s with uid_generator := s.uid_generator + 1,
                text := s.text ++ [.staticstr s.uid_generator c₁] }) ∧
    (X64.allocate_static_str c₂ (X64.allocate_static_str c₁ s).2).1 ≠
      (X64.allocate_static_str c₁ s).1 := by
  refine ⟨rfl, ?_⟩
  simp only [X64.allocate_static_str]
  omega

namespace X64

theorem ext_refl (p : AsmProgram) : Ext p p :=
  ⟨rfl, le_refl _, [], by simp⟩

theorem ext_trans {p q r : AsmProgram} (h₁ : Ext p q) (h₂ : Ext q r) :
    Ext p r := by
  obtain ⟨e₁, u₁, t₁, ht₁⟩ := h₁
  obtain ⟨e₂, u₂, t₂, ht₂⟩ := h₂
  exact ⟨e₂.trans e₁, u₁.trans u₂, t₁ ++ t₂, by
    rw [ht₂, ht₁, List.append_assoc]⟩

theorem ext_put (l : List Line) (p : AsmProgram) : Ext p (put l p) :=
  ⟨rfl, le_refl _, l, rfl⟩

theorem ext_cowify (p : AsmProgram) : Ext p (cowify p) := ext_put _ _

theorem ext_drop_pop (p : AsmProgram) : Ext p (drop_pop p) := ext_put _ _

theorem ext_allocate_static_str (s : String) (p : AsmProgram) :
    Ext p (allocate_static_str s p).2 :=
  ⟨rfl, Nat.le_succ _, [.staticstr p.uid_generator s], rfl⟩

theorem ext_push_lit (lit : Value) (p : AsmProgram) :
    Ext p (push_lit lit p) := by
  cases lit with
  | Num q => exact ext_put _ _
  | Str s => exact ext_trans (ext_allocate_static_str s p) (ext_put _ _)
  | Bool b => exact ext_put _ _

/-- Every old-backend compiler function satisfies `Ext` on success. -/
theorem ext_master : ∀ fuel : Nat,
    (∀ e p r p', generate_expr fuel e p = .ok r p' → Ext p p') ∧
    (∀ f sp args p r p',
      generate_func_call fuel f sp args p = .ok r p' → Ext p p') ∧
    (∀ st p r p', generate_statement fuel st p = .ok r p' → Ext p p') ∧
    (∀ sts p r p', statement_list fuel sts p = .ok r p' → Ext p p') ∧
    (∀ pn args p r p',
      generate_proc_call fuel pn args p = .ok r p' → Ext p p') := by
  intro fuel
  induction fuel with
  | zero =>
      refine ⟨?_, ?_, ?_, ?_, ?_⟩
      · exact fun _ _ _ _ h => nomatch h
      · exact fun _ _ _ _ _ _ h => nomatch h
      · exact fun _ _ _ _ h => nomatch h
      · exact fun _ _ _ _ h => nomatch h
      · exact fun _ _ _ _ _ h => nomatch h
  | succ n ih =>
      obtain ⟨ihE, ihFC, ihST, ihSL, ihPC⟩ := ih
      refine ⟨?_, ?_, ?_, ?_, ?_⟩
      · intro e p r p' h
        cases e with
        | Lit lit => cases h; exact ext_push_lit lit p
        | Sym s sp => cases h
        | FuncCall f sp args => exact ihFC f sp args p r p' h
        | AddSub a b => cases h
        | MulDiv a b => cases h
      · intro f sp args p r p' h
        simp only [generate_func_call] at h
        split at h
        · -- the "++" arm
          split at h
          · exact ihE _ _ _ _ h
          · -- two arguments
            rename_i lhs rhs
            split at h
            next u p2 heq1 =>
              split at h
              next v p3 heq2 =>
                cases h
                exact ext_trans (ext_put _ _)
                  (ext_trans (ihE _ _ _ _ heq1)
                    (ext_trans (ext_cowify _)
                      (ext_trans (ihE _ _ _ _ heq2)
                        (ext_trans (ext_cowify _)
                          (ext_trans (ext_put _ _)
                            (ext_trans (ext_drop_pop _)
                              (ext_drop_pop _)))))))
              next r2 heq2 hne2 =>
                exact absurd h (hne2 _ _)
            next r1 heq1 hne1 =>
              exact absurd h (hne1 _ _)
          · cases h
        all_goals cases h
      · intro st p r p' h
        cases st with
        | ProcCall pn sp args => exact ihPC pn args p r p' h
        | Do stmts => exact ihSL stmts p r p' h
        | IfElse => cases h
        | Repeat => cases h
        | Forever body =>
            simp only [generate_statement] at h
            cases hb : generate_statement n body
                (put [.label p.uid_generator]
                  { p with uid_generator := p.uid_generator + 1 }) with
            | ok u p2 =>
                rw [hb] at h
                cases h
                refine ext_trans ?_ (ext_trans (ihST _ _ _ _ hb) (ext_put _ _))
                exact ⟨rfl, Nat.le_succ _, [.label p.uid_generator], rfl⟩
            | err e => rw [hb] at h; cases h
            | panicked => rw [hb] at h; cases h
            | spin => rw [hb] at h; cases h
        | Until => cases h
        | While => cases h
        | For => cases h
      · intro sts p r p' h
        cases sts with
        | nil => cases h; exact ext_refl p
        | cons st sts =>
            simp only [statement_list] at h
            cases hs : generate_statement n st p with
            | ok u p2 =>
                rw [hs] at h
                exact ext_trans (ihST _ _ _ _ hs) (ihSL _ _ _ _ h)
            | err e => rw [hs] at h; cases h
            | panicked => rw [hs] at h; cases h
            | spin => rw [hs] at h; cases h
      · intro pn args p r p' h
        simp only [generate_proc_call] at h
        split at h
        · -- "print"
          split at h
          · -- one argument
            split at h
            · -- literal message
              cases h
              exact ext_trans (ext_allocate_static_str _ _) (ext_put _ _)
            · -- non-literal message
              cases hm : generate_expr n _ p with
              | ok u p2 =>
                  rw [hm] at h
                  cases h
                  exact ext_trans (ihE _ _ _ _ hm)
                    (ext_trans (ext_cowify _)
                      (ext_trans (ext_put _ _) (ext_drop_pop _)))
              | err e => rw [hm] at h; cases h
              | panicked => rw [hm] at h; cases h
              | spin => rw [hm] at h; cases h
          · cases h
        · cases h

end X64

/-- C8: the rendered output places, after the fixed prelude, a `main`
routine that calls every registered entry point in registration order
(the declaration order of the `when-flag-clicked` procedures) and then
terminates the process with the exit syscall, before any compiled
procedure body: a program of two start procedures produces
`prelude, main:, call u₁, call u₂, exit` followed by the two labelled
bodies, with `u₁` the first procedure's label. -/
theorem startup_dispatch_order (fuel : Nat) (p1 p2 : Procedure)
    (h1 : p1.params = []) (h2 : p2.params = [])
    (s' : X64.AsmProgram)
    (h : X64.generate_program fuel
      [("when-flag-clicked", p1), ("when-flag-clicked", p2)]
      X64.empty_program = .ok () s') :
    ∃ u2 body1 body2, 0 < u2 ∧
      s'.entry_points = [0, u2] ∧
      s'.text = [.label 0] ++ body1 ++ [.ret] ++ [.label u2] ++ body2
        ++ [.ret] ∧
      X64.render s' =
        [.prelude_text, .main_label, .call_entry 0, .call_entry u2,
         .exit_block] ++ s'.text.map .text := by
  simp only [X64.generate_program] at h
  cases hp1 : X64.generate_proc fuel "when-flag-clicked" p1
      X64.empty_program with
  | err e => rw [hp1] at h; cases h
  | panicked => rw [hp1] at h; cases h
  | spin => rw [hp1] at h; cases h
  | ok u1 pa' =>
    rw [hp1] at h
    simp only [X64.generate_proc] at hp1
    rw [if_pos h1] at hp1
    split at hp1
    next ua pa heq1 =>
      cases hp1
      simp only [] at h
      cases hp2 : X64.generate_proc fuel "when-flag-clicked" p2
          (X64.put [.ret] pa) with
      | err e => rw [hp2] at h; cases h
      | panicked => rw [hp2] at h; cases h
      | spin => rw [hp2] at h; cases h
      | ok u2' pb' =>
        rw [hp2] at h
        cases h
        simp only [X64.generate_proc] at hp2
        rw [if_pos h2] at hp2
        split at hp2
        next ub pb heq2 =>
          cases hp2
          obtain ⟨he1, hu1, t1, ht1⟩ := (X64.ext_master fuel).2.2.1 _ _ _ _ heq1
          obtain ⟨he2, hu2, t2, ht2⟩ := (X64.ext_master fuel).2.2.1 _ _ _ _ heq2
          simp only [X64.put, X64.empty_program] at he1 hu1 ht1 he2 hu2 ht2
          refine ⟨(X64.put [.ret] pa).uid_generator, t1, t2, ?_, ?_, ?_, ?_⟩
          · simp only [X64.put]
            omega
          · simp only [X64.put]
            simp [X64.put, he2, he1]
          · simp only [X64.put]
            simp [X64.put, ht2, ht1]
          · simp only [X64.render, X64.put]
            simp [X64.put, he2, he1]
        all_goals cases hp2
    all_goals cases hp1

/-- C8 witness: a concrete program with two empty `when-flag-clicked`
procedures compiles, and the dispatch theorem instantiates on it. -/
theorem startup_dispatch_order_witness :
    X64.generate_program 2
      [("when-flag-clicked", ⟨[], .Do []⟩), ("when-flag-clicked", ⟨[], .Do []⟩)]
      X64.empty_program = .ok () ⟨2, [0, 1], [.label 0, .ret, .label 1, .ret]⟩ ∧
    (∃ u2 body1 body2, 0 < u2 ∧
      (⟨2, [0, 1], [.label 0, .ret, .label 1, .ret]⟩ :
        X64.AsmProgram).entry_points = [0, u2] ∧
      (⟨2, [0, 1], [.label 0, .ret, .label 1, .ret]⟩ :
        X64.AsmProgram).text =
        [.label 0] ++ body1 ++ [.ret] ++ [.label u2] ++ body2 ++ [.ret] ∧
      X64.render ⟨2, [0, 1], [.label 0, .ret, .label 1, .ret]⟩ =
        [.prelude_text, .main_label, .call_entry 0, .call_entry u2,
         .exit_block] ++
          (⟨2, [0, 1], [.label 0, .ret, .label 1, .ret]⟩ :
            X64.AsmProgram).text.map .text) :=
  ⟨rfl,
   startup_dispatch_order 2 ⟨[], .Do []⟩ ⟨[], .Do []⟩ rfl rfl
     ⟨2, [0, 1], [.label 0, .ret, .label 1, .ret]⟩ rfl⟩

theorem bool_jump_loop_chain (is_and : Bool) (lbl : Nat) :
    ∀ (xs : List Expr) (fuel : Nat) (s s' : AsmProgram),
      bool_jump_loop fuel is_and lbl xs s = .ok () s' →
      BoolJumpChain is_and lbl fuel xs s s' := by
  intro xs
  induction xs with
  | nil =>
      intro fuel s s' h
      cases fuel with
      | zero => cases h
      | succ n =>
          cases h
          rfl
  | cons e es ih =>
      intro fuel s s' h
      cases fuel with
      | zero => cases h
      | succ n =>
          simp only [bool_jump_loop] at h
          rw [bind_ok_iff] at h
          obtain ⟨u, s₁, hb, h⟩ := h
          rw [bind_ok_iff] at h
          obtain ⟨v, s₂, he, h⟩ := h
          simp only [emitM] at he
          cases he
          exact ⟨s₁, hb, ih n _ s' h⟩

/-- C4: boolean `and` / `or` compilation.  With zero operands, `and`
yields the Bool literal true (`mov eax, 1`) and `or` yields false
(`xor eax, eax`); with one operand that operand is compiled and passed
through unchanged; with two or more operands, one label is allocated up
front, every operand except the last is compiled to Bool and followed by
`test rax, rax` plus a conditional jump to that single shared end label
(`jz` for and, `jnz` for or), the last operand is compiled to Bool, and
the shared label is placed at the end, the whole expression producing
Bool. -/
theorem and_or_short_circuit :
    (∀ (n : Nat) (sp : Span) (s : AsmProgram),
      generate_func_call (n + 1) "and" sp [] s =
        .ok .Bool (emit [.mov_eax_1] s) ∧
      generate_func_call (n + 1) "or" sp [] s =
        .ok .Bool (emit [.xor_eax_eax] s)) ∧
    (∀ (n : Nat) (sp : Span) (e : Expr) (s : AsmProgram),
      generate_func_call (n + 1) "and" sp [e] s = generate_expr n e s ∧
      generate_func_call (n + 1) "or" sp [e] s = generate_expr n e s) ∧
    (∀ (nm : String), (nm = "and" ∨ nm = "or") →
      ∀ (n : Nat) (sp : Span) (a b : Expr) (more : List Expr)
        (s : AsmProgram) (t : Typ) (s' : AsmProgram),
      generate_func_call (n + 1) nm sp (a :: b :: more) s = .ok t s' →
      t = .Bool ∧
      ∃ s₁ s₂,
        BoolJumpChain (nm = "and") s.uid_generator n
          (split_last a (b :: more)).1
          { s with uid_generator := s.uid_generator + 1 } s₁ ∧
        generate_bool_expr n (split_last a (b :: more)).2 s₁ = .ok () s₂ ∧
        s' = emit [.local_label s.uid_generator] s₂) := by
  refine ⟨?_, ?_, ?_⟩
  · intro n sp s
    exact ⟨rfl, rfl⟩
  · intro n sp e s
    exact ⟨rfl, rfl⟩
  · rintro nm (rfl | rfl) n sp a b more s t s' h <;>
    · simp only [generate_func_call] at h
      rcases hsl : split_last a (b :: more) with ⟨rest, last⟩
      rw [hsl] at h
      rw [bind_ok_iff] at h
      obtain ⟨lbl, s₀, hu, h⟩ := h
      simp only [new_uid] at hu
      cases hu
      rw [bind_ok_iff] at h
      obtain ⟨u, s₁, hloop, h⟩ := h
      rw [bind_ok_iff] at h
      obtain ⟨v, s₂, hlast, h⟩ := h
      rw [bind_ok_iff] at h
      obtain ⟨w, s₃, hemit, h⟩ := h
      simp only [emitM] at hemit
      cases hemit
      rw [pure_apply] at h
      cases h
      refine ⟨rfl, s₁, s₂, ?_, ?_, rfl⟩
      · exact bool_jump_loop_chain _ _ _ n _ s₁ hloop
      · exact hlast

/-- C4 witness: `(and true false true)` compiles to the shared-label
shape, and the theorem's three parts instantiate concretely. -/
theorem and_or_short_circuit_witness :
    generate_func_call 5 "and" span0
        [.Lit (.Bool true), .Lit (.Bool false), .Lit (.Bool true)]
        state_aligned = .ok .Bool and_example_out ∧
    generate_func_call 1 "and" span0 [] state_aligned =
      .ok .Bool (emit [.mov_eax_1] state_aligned) ∧
    generate_func_call 1 "or" span0 [] state_aligned =
      .ok .Bool (emit [.xor_eax_eax] state_aligned) ∧
    generate_func_call 2 "or" span0 [.Lit (.Num 7)] state_aligned =
      generate_expr 1 (.Lit (.Num 7)) state_aligned ∧
    ((.Bool : Typ) = .Bool ∧
      ∃ s₁ s₂,
        BoolJumpChain true 0 4
          [.Lit (.Bool true), .Lit (.Bool false)]
          { state_aligned with uid_generator := 1 } s₁ ∧
        generate_bool_expr 4 (.Lit (.Bool true)) s₁ = .ok () s₂ ∧
        and_example_out = emit [.local_label 0] s₂) :=
  ⟨rfl,
   (and_or_short_circuit.1 0 span0 state_aligned).1,
   (and_or_short_circuit.1 0 span0 state_aligned).2,
   (and_or_short_circuit.2.1 1 span0 (.Lit (.Num 7)) state_aligned).2,
   and_or_short_circuit.2.2 "and" (Or.inl rfl) 4 span0
     (.Lit (.Bool true)) (.Lit (.Bool false)) [.Lit (.Bool true)]
     state_aligned .Bool and_example_out rfl⟩

theorem generate_double_lit (q : ℚ) (fuel : Nat) (s : AsmProgram)
    (hf : 2 ≤ fuel) :
    generate_double_expr fuel (.Lit (.Num q)) s =
      .ok () (emit (lit_double_code q) s) := by
  match fuel, hf with
  | k + 2, _ => rfl

theorem add_sub_pos_loop_lits (qs : List ℚ) :
    ∀ (fuel : Nat) (s : AsmProgram), qs.length + 2 ≤ fuel →
      add_sub_pos_loop fuel (lits qs) s =
        .ok () (emit (add_acc_code qs) s) := by
  induction qs with
  | nil =>
      intro fuel s hf
      match fuel, hf with
      | k + 2, _ =>
          simp [add_sub_pos_loop, lits, add_acc_code, emit, pure_apply]
  | cons q qs ih =>
      intro fuel s hf
      match fuel, hf with
      | k + 3, hf =>
          have hd := generate_double_lit q (k + 2) s (by omega)
          have e1 : add_sub_pos_loop (k + 3) (lits (q :: qs)) s =
              add_sub_pos_loop (k + 2) (lits qs)
                (emit [.addsd_xmm0_rsp, .movsd_store_rsp_xmm0]
                  (emit (lit_double_code q) s)) := by
            rw [show lits (q :: qs) = .Lit (.Num q) :: lits qs from rfl]
            rw [show add_sub_pos_loop (k + 3) (.Lit (.Num q) :: lits qs) s =
                (generate_double_expr (k + 2) (.Lit (.Num q)) >>= fun _ =>
                 emitM [.addsd_xmm0_rsp, .movsd_store_rsp_xmm0] >>= fun _ =>
                 add_sub_pos_loop (k + 2) (lits qs)) s from rfl]
            rw [bind_apply, hd]
            rfl
          rw [e1, ih (k + 2) _
            (by simp only [List.length_cons] at hf; omega)]
          simp [emit, add_acc_code, List.append_assoc]

theorem mul_div_num_loop_lits (qs : List ℚ) :
    ∀ (fuel : Nat) (s : AsmProgram), qs.length + 2 ≤ fuel →
      mul_div_num_loop fuel (lits qs) s =
        .ok () (emit (mul_acc_code qs) s) := by
  induction qs with
  | nil =>
      intro fuel s hf
      match fuel, hf with
      | k + 2, _ =>
          simp [mul_div_num_loop, lits, mul_acc_code, emit, pure_apply]
  | cons q qs ih =>
      intro fuel s hf
      match fuel, hf with
      | k + 3, hf =>
          have hd := generate_double_lit q (k + 2) s (by omega)
          have e1 : mul_div_num_loop (k + 3) (lits (q :: qs)) s =
              mul_div_num_loop (k + 2) (lits qs)
                (emit [.mulsd_xmm0_rsp, .movsd_store_rsp_xmm0]
                  (emit (lit_double_code q) s)) := by
            rw [show lits (q :: qs) = .Lit (.Num q) :: lits qs from rfl]
            rw [show mul_div_num_loop (k + 3) (.Lit (.Num q) :: lits qs) s =
                (generate_double_expr (k + 2) (.Lit (.Num q)) >>= fun _ =>
                 emitM [.mulsd_xmm0_rsp, .movsd_store_rsp_xmm0] >>= fun _ =>
                 mul_div_num_loop (k + 2) (lits qs)) s from rfl]
            rw [bind_apply, hd]
            rfl
          rw [e1, ih (k + 2) _
            (by simp only [List.length_cons] at hf; omega)]
          simp [emit, mul_acc_code, List.append_assoc]

theorem run_add_acc (qs : List ℚ) :
    ∀ (x0 x1 : ℚ) (rx : ArithSem.W) (a : ℚ) (st : List ArithSem.W),
      ∃ x0' rx',
        ArithSem.run (add_acc_code qs) ⟨x0, x1, rx, .q a :: st⟩ =
          some ⟨x0', x1, rx', .q (a + qs.sum) :: st⟩ := by
  induction qs with
  | nil =>
      intro x0 x1 rx a st
      exact ⟨x0, rx, by simp [add_acc_code, ArithSem.run]⟩
  | cons q qs ih =>
      intro x0 x1 rx a st
      obtain ⟨x0', rx', hrun⟩ := ih (q + a) x1 (.q q) (q + a) st
      refine ⟨x0', rx', ?_⟩
      have e1 : ArithSem.run (add_acc_code (q :: qs))
            ⟨x0, x1, rx, .q a :: st⟩ =
          ArithSem.run (add_acc_code qs)
            ⟨q + a, x1, .q q, .q (q + a) :: st⟩ := rfl
      rw [e1, hrun]
      have e2 : q + a + qs.sum = a + (q :: qs).sum := by
        simp [List.sum_cons]
        ring
      rw [e2]

theorem run_mul_acc (qs : List ℚ) :
    ∀ (x0 x1 : ℚ) (rx : ArithSem.W) (a : ℚ) (st : List ArithSem.W),
      ∃ x0' rx',
        ArithSem.run (mul_acc_code qs) ⟨x0, x1, rx, .q a :: st⟩ =
          some ⟨x0', x1, rx', .q (a * qs.prod) :: st⟩ := by
  induction qs with
  | nil =>
      intro x0 x1 rx a st
      exact ⟨x0, rx, by simp [mul_acc_code, ArithSem.run]⟩
  | cons q qs ih =>
      intro x0 x1 rx a st
      obtain ⟨x0', rx', hrun⟩ := ih (q * a) x1 (.q q) (q * a) st
      refine ⟨x0', rx', ?_⟩
      have e1 : ArithSem.run (mul_acc_code (q :: qs))
            ⟨x0, x1, rx, .q a :: st⟩ =
          ArithSem.run (mul_acc_code qs)
            ⟨q * a, x1, .q q, .q (q * a) :: st⟩ := rfl
      rw [e1, hrun]
      have e2 : q * a * qs.prod = a * (q :: qs).prod := by
        simp [List.prod_cons]
        ring
      rw [e2]

theorem generate_addsub_neg_lits (q : ℚ) (qs : List ℚ) (fuel : Nat)
    (s : AsmProgram) (hf : qs.length + 4 ≤ fuel) :
    generate_expr fuel (.AddSub [] (lits (q :: qs))) s =
      .ok .Double (emit (addsub_neg_code q qs) s) := by
  match fuel, hf with
  | G + 2, hf =>
    have e0 : generate_expr (G + 2) (.AddSub [] (lits (q :: qs))) s =
        (add_sub_pos_loop G (lits qs) >>= fun _ =>
         emitM [.mov_rax_signbit, .xor_rsp_rax, .movsd_xmm0_rsp,
                .add_rsp 8] >>= fun _ =>
         flip_aligned >>= fun _ => pure Typ.Double)
        { emit [.sub_rsp 8, .movsd_store_rsp_xmm0]
            (emit (lit_double_code q) s) with
          stack_aligned := !s.stack_aligned } := by
      have hd := generate_double_lit q G s (by omega)
      rw [show generate_expr (G + 2) (.AddSub [] (lits (q :: qs))) s =
          (generate_double_expr G (.Lit (.Num q)) >>= fun _ =>
           emitM [.sub_rsp 8, .movsd_store_rsp_xmm0] >>= fun _ =>
           flip_aligned >>= fun _ =>
           add_sub_pos_loop G (lits qs) >>= fun _ =>
           emitM [.mov_rax_signbit, .xor_rsp_rax, .movsd_xmm0_rsp,
                  .add_rsp 8] >>= fun _ =>
           flip_aligned >>= fun _ => pure Typ.Double) s from rfl]
      rw [bind_apply, hd]
      rfl
    rw [e0, bind_apply, add_sub_pos_loop_lits qs G _ (by omega)]
    simp only [bind_apply, emitM, flip_aligned, pure_apply, emit,
      addsub_neg_code, emit_aligned]
    simp [List.append_assoc]

theorem generate_muldiv_recip_lits (q : ℚ) (qs : List ℚ) (fuel : Nat)
    (s : AsmProgram) (hf : qs.length + 4 ≤ fuel) :
    generate_expr fuel (.MulDiv [] (lits (q :: qs))) s =
      .ok .Double (emit (muldiv_recip_code q qs) s) := by
  match fuel, hf with
  | G + 2, hf =>
    have e0 : generate_expr (G + 2) (.MulDiv [] (lits (q :: qs))) s =
        (mul_div_num_loop G (lits qs) >>= fun _ =>
         emitM [.mov_rax_float1, .movq_xmm0_rax, .divsd_xmm0_rsp,
                .add_rsp 8] >>= fun _ =>
         flip_aligned >>= fun _ => pure Typ.Double)
        { emit [.sub_rsp 8, .movsd_store_rsp_xmm0]
            (emit (lit_double_code q) s) with
          stack_aligned := !s.stack_aligned } := by
      have hd := generate_double_lit q G s (by omega)
      rw [show generate_expr (G + 2) (.MulDiv [] (lits (q :: qs))) s =
          (generate_double_expr G (.Lit (.Num q)) >>= fun _ =>
           emitM [.sub_rsp 8, .movsd_store_rsp_xmm0] >>= fun _ =>
           flip_aligned >>= fun _ =>
           mul_div_num_loop G (lits qs) >>= fun _ =>
           emitM [.mov_rax_float1, .movq_xmm0_rax, .divsd_xmm0_rsp,
                  .add_rsp 8] >>= fun _ =>
           flip_aligned >>= fun _ => pure Typ.Double) s from rfl]
      rw [bind_apply, hd]
      rfl
    rw [e0, bind_apply, mul_div_num_loop_lits qs G _ (by omega)]
    simp only [bind_apply, emitM, flip_aligned, pure_apply, emit,
      muldiv_recip_code, emit_aligned]
    simp [List.append_assoc]

theorem run_addsub_neg (q : ℚ) (qs : List ℚ) (x0 x1 : ℚ)
    (rx : ArithSem.W) (st : List ArithSem.W) :
    ArithSem.run (addsub_neg_code q qs) ⟨x0, x1, rx, st⟩ =
      some ⟨-(q + qs.sum), x1, .signmask, st⟩ := by
  obtain ⟨x0', rx', hrun⟩ := run_add_acc qs q x1 (.q q) q st
  have e1 : ArithSem.run (addsub_neg_code q qs) ⟨x0, x1, rx, st⟩ =
      ArithSem.run (add_acc_code qs ++
        [.mov_rax_signbit, .xor_rsp_rax, .movsd_xmm0_rsp, .add_rsp 8])
        ⟨q, x1, .q q, .q q :: st⟩ := rfl
  rw [e1, ArithSem.run_append, hrun]
  rfl

theorem run_muldiv_recip (q : ℚ) (qs : List ℚ) (x0 x1 : ℚ)
    (rx : ArithSem.W) (st : List ArithSem.W) :
    ArithSem.run (muldiv_recip_code q qs) ⟨x0, x1, rx, st⟩ =
      some ⟨1 / (q * qs.prod), x1, .q 1, st⟩ := by
  obtain ⟨x0', rx', hrun⟩ := run_mul_acc qs q x1 (.q q) q st
  have e1 : ArithSem.run (muldiv_recip_code q qs) ⟨x0, x1, rx, st⟩ =
      ArithSem.run (mul_acc_code qs ++
        [.mov_rax_float1, .movq_xmm0_rax, .divsd_xmm0_rsp, .add_rsp 8])
        ⟨q, x1, .q q, .q q :: st⟩ := rfl
  rw [e1, ArithSem.run_append, hrun]
  rfl

/-- C2: degenerate cases of n-ary arithmetic.  `(+)` with no operands
emits `xorpd xmm0, xmm0`, whose execution yields the Double 0.0;
`(*)` with no operands emits the literal 1.0; `(+ q)` emits the literal
plus a stack round-trip, executing to `q` unchanged; an all-negatives
`AddSub` accumulates the operands' sum on the stack and then negates it
by flipping the accumulator's sign bit, so `(- 5)` executes to −5.0; and
an all-denominators `MulDiv` accumulates the product and divides 1.0 by
it. -/
theorem arith_degenerate_cases :
    (∀ s, generate_expr 2 (.AddSub [] []) s =
      .ok .Double (emit [.xorpd_xmm0_xmm0] s)) ∧
    (∀ m : ArithSem.AState,
      ArithSem.run [.xorpd_xmm0_xmm0] m = some { m with xmm0 := 0 }) ∧
    (∀ s, generate_expr 2 (.MulDiv [] []) s =
      .ok .Double (emit (lit_double_code 1) s)) ∧
    (∀ m : ArithSem.AState, ArithSem.run (lit_double_code 1) m =
      some { m with xmm0 := 1, rax := .q 1 }) ∧
    (∀ (q : ℚ) (s : AsmProgram),
      generate_expr 4 (.AddSub [.Lit (.Num q)] []) s =
        .ok .Double (emit (plus_single_code q) s)) ∧
    (∀ (q x0 x1 : ℚ) (rx : ArithSem.W) (st : List ArithSem.W),
      ArithSem.run (plus_single_code q) ⟨x0, x1, rx, st⟩ =
        some ⟨q, x1, .q q, st⟩) ∧
    (∀ (q : ℚ) (qs : List ℚ) (fuel : Nat) (s : AsmProgram),
      qs.length + 4 ≤ fuel →
      generate_expr fuel (.AddSub [] (lits (q :: qs))) s =
        .ok .Double (emit (addsub_neg_code q qs) s)) ∧
    (∀ (q : ℚ) (qs : List ℚ) (x0 x1 : ℚ) (rx : ArithSem.W)
       (st : List ArithSem.W),
      ArithSem.run (addsub_neg_code q qs) ⟨x0, x1, rx, st⟩ =
        some ⟨-(q + qs.sum), x1, .signmask, st⟩) ∧
    (∀ (q : ℚ) (qs : List ℚ) (fuel : Nat) (s : AsmProgram),
      qs.length + 4 ≤ fuel →
      generate_expr fuel (.MulDiv [] (lits (q :: qs))) s =
        .ok .Double (emit (muldiv_recip_code q qs) s)) ∧
    (∀ (q : ℚ) (qs : List ℚ) (x0 x1 : ℚ) (rx : ArithSem.W)
       (st : List ArithSem.W),
      ArithSem.run (muldiv_recip_code q qs) ⟨x0, x1, rx, st⟩ =
        some ⟨1 / (q * qs.prod), x1, .q 1, st⟩) := by
  refine ⟨fun s => rfl, fun m => rfl, fun s => rfl, fun m => rfl,
    ?_, fun q x0 x1 rx st => rfl,
    generate_addsub_neg_lits, run_addsub_neg,
    generate_muldiv_recip_lits, run_muldiv_recip⟩
  intro q s
  have e0 : generate_expr 4 (.AddSub [.Lit (.Num q)] []) s =
      .ok .Double
        { emit [.movsd_xmm0_rsp, .add_rsp 8]
            { emit [.sub_rsp 8, .movsd_store_rsp_xmm0]
                (emit (lit_double_code q) s) with
              stack_aligned := !s.stack_aligned } with
          stack_aligned := !(!s.stack_aligned) } := rfl
  rw [e0]
  simp [emit, plus_single_code, List.append_assoc]

/-- C2 witness: `(- 5)` compiles to the sign-flip code and executes to
−5.0; `(/ 2)`-style all-denominator division executes to 1/2. -/
theorem arith_degenerate_cases_witness :
    generate_expr 4 (.AddSub [] (lits [5])) state_aligned =
      .ok .Double (emit (addsub_neg_code 5 []) state_aligned) ∧
    ArithSem.run (addsub_neg_code 5 []) ⟨0, 0, .junk, []⟩ =
      some ⟨-5, 0, .signmask, []⟩ ∧
    generate_expr 4 (.MulDiv [] (lits [2])) state_aligned =
      .ok .Double (emit (muldiv_recip_code 2 []) state_aligned) ∧
    ArithSem.run (muldiv_recip_code 2 []) ⟨0, 0, .junk, []⟩ =
      some ⟨1 / 2, 0, .q 1, []⟩ :=
  ⟨arith_degenerate_cases.2.2.2.2.2.2.1 5 [] 4 state_aligned (by decide),
   by
     have := arith_degenerate_cases.2.2.2.2.2.2.2.1 5 [] 0 0 .junk []
     simpa using this,
   arith_degenerate_cases.2.2.2.2.2.2.2.2.1 2 [] 4 state_aligned
     (by decide),
   by
     have := arith_degenerate_cases.2.2.2.2.2.2.2.2.2 2 [] 0 0 .junk []
     simpa using this⟩

theorem countDrop_emit (l : List Instr) (s : AsmProgram) :
    countDrop (emit l s).code = countDrop s.code + countDrop l := by
  simp [countDrop, emit, List.count_append]

theorem split_last_append :
    ∀ (xs : List Expr) (x : Expr),
      (split_last x xs).1 ++ [(split_last x xs).2] = x :: xs := by
  intro xs
  induction xs with
  | nil => intro x; rfl
  | cons y ys ih =>
      intro x
      have := ih y
      simp only [split_last]
      rcases h : split_last y ys with ⟨r, l⟩
      rw [h] at this
      simpa using this

theorem generate_cow_lit (str : String) (fuel : Nat) (s : AsmProgram)
    (hf : 2 ≤ fuel) :
    generate_cow_expr fuel (.Lit (.Str str)) s =
      .ok () (emit [.lea_rax_static s.uid_generator,
                    .mov_rdx_imm str.length]
        (emit [.staticstr s.uid_generator str]
          { s with uid_generator := s.uid_generator + 1 })) := by
  match fuel, hf with
  | k + 2, _ => rfl

theorem concat_loop_drop_count :
    ∀ (rest : List Expr), (∀ e ∈ rest, ∃ str, e = .Lit (.Str str)) →
    ∀ (fuel : Nat) (s s' : AsmProgram), rest.length + 2 ≤ fuel →
      concat_loop fuel rest s = .ok () s' →
      countDrop s'.code = countDrop s.code + 2 * rest.length := by
  intro rest
  induction rest with
  | nil =>
      intro _ fuel s s' hf h
      match fuel, hf with
      | k + 1, _ =>
          cases h
          simp
  | cons e rest ih =>
      intro hlits fuel s s' hf h
      match fuel, hf with
      | k + 3, hf =>
          have hstep : concat_loop (k + 3) (e :: rest) s =
              (concat_loop (k + 2) rest >>= fun _ =>
               emitM [.push_rdx, .sub_rsp 8, .push_rdx, .push_rax] >>= fun _ =>
               generate_cow_expr (k + 2) e >>= fun _ =>
               emitM [.add_rsp24_rdx, .push_rdx, .push_rax, .mov_rdi_rsp40,
                 .call_plt "malloc", .mov_rsp32_rax, .mov_rdi_rax,
                 .mov_rsi_rsp0, .mov_rdx_rsp8, .call_plt "memcpy",
                 .mov_rdi_rax, .add_rdi_rsp8, .mov_rsi_rsp16, .mov_rdx_rsp24,
                 .call_plt "memcpy", .call "drop_pop_cow",
                 .call "drop_pop_cow", .pop_rax, .pop_rdx]) s := rfl
          rw [hstep] at h
          rw [bind_ok_iff] at h
          obtain ⟨u1, s1, h1, h⟩ := h
          rw [bind_ok_iff] at h
          obtain ⟨u2, s2, h2, h⟩ := h
          simp only [emitM] at h2
          cases h2
          rw [bind_ok_iff] at h
          obtain ⟨u3, s3, h3, h⟩ := h
          obtain ⟨str, rfl⟩ := hlits e (by simp)
          rw [generate_cow_lit str (k + 2) _ (by omega)] at h3
          cases h3
          simp only [emitM] at h
          cases h
          have hcount := ih (fun e he => hlits e (by simp [he])) (k + 2) s s1
            (by simp only [List.length_cons] at hf; omega) h1
          simp only [countDrop_emit, hcount]
          have c1 : countDrop [Instr.push_rdx, .sub_rsp 8, .push_rdx,
            .push_rax] = 0 := by decide
          have c2 : countDrop [Instr.lea_rax_static
              (emit [Instr.push_rdx, .sub_rsp 8, .push_rdx, .push_rax]
                s1).uid_generator,
            .mov_rdx_imm str.length] = 0 := rfl
          have c3 : countDrop [Instr.staticstr
              (emit [Instr.push_rdx, .sub_rsp 8, .push_rdx, .push_rax]
                s1).uid_generator str] = 0 := rfl
          have c4 : countDrop [Instr.add_rsp24_rdx, .push_rdx, .push_rax,
            .mov_rdi_rsp40, .call_plt "malloc", .mov_rsp32_rax,
            .mov_rdi_rax, .mov_rsi_rsp0, .mov_rdx_rsp8, .call_plt "memcpy",
            .mov_rdi_rax, .add_rdi_rsp8, .mov_rsi_rsp16, .mov_rdx_rsp24,
            .call_plt "memcpy", .call "drop_pop_cow",
            .call "drop_pop_cow", .pop_rax, .pop_rdx] = 2 := by decide
          rw [c1, c2, c3, c4]
          simp only [List.length_cons]
          omega

/-- C5: string concatenation.  Zero operands yield the empty borrowed
string (`str_empty` with length 0, representation StaticStr); one operand
passes through; with two or more (literal) operands the fold emits
exactly two `drop_pop_cow` releases per step — `2·(n−1)` in total — and
produces representation OwnedString.  Running the compiled code of
`(++ "ab" "cd")` mallocs a 4-byte buffer, memcpys both operands' bytes
into it, and ends with the owned buffer `"abcd"` of length 4 and nothing
released (both inputs are borrowed); `(++ "a" "b" "c")` folds
right-to-left (the rightmost literal is interned first), releases the
intermediate allocation, and ends owning only the final `"abc"`
buffer. -/
theorem string_concat_fold :
    (∀ (n : Nat) (sp : Span) (s : AsmProgram),
      generate_func_call (n + 1) "++" sp [] s =
        .ok .StaticStr (emit [.lea_rax_str_empty, .xor_edx_edx] s)) ∧
    (∀ m : StrSem.CState,
      StrSem.run [.lea_rax_str_empty, .xor_edx_edx] m =
        some { m with rax := .ptr .str_empty 0, rdx := .n 0 }) ∧
    (∀ (n : Nat) (sp : Span) (e : Expr) (s : AsmProgram),
      generate_func_call (n + 1) "++" sp [e] s = generate_expr n e s) ∧
    (∀ (n : Nat) (sp : Span) (a b : Expr) (more : List Expr)
       (s : AsmProgram) (t : Typ) (s' : AsmProgram),
      (∀ e ∈ a :: b :: more, ∃ str, e = .Lit (.Str str)) →
      more.length + 3 ≤ n →
      generate_func_call (n + 1) "++" sp (a :: b :: more) s = .ok t s' →
      t = .OwnedString ∧
      countDrop s'.code = countDrop s.code + 2 * (more.length + 1)) ∧
    (generate_expr 6
        (.FuncCall "++" span0 [.Lit (.Str "ab"), .Lit (.Str "cd")])
        state_aligned = .ok .OwnedString ⟨2, true, concat2_code, [], [], []⟩ ∧
      StrSem.run concat2_code machine0 =
        some ⟨.ptr (.heap 0) 0, .n 4, .ptr (.heap 0) 2, .ptr (.static 0) 0,
          [], [(0, "cd"), (1, "ab")],
          [[some 'a', some 'b', some 'c', some 'd']], []⟩) ∧
    (∃ code : List Instr,
      generate_expr 6
        (.FuncCall "++" span0
          [.Lit (.Str "a"), .Lit (.Str "b"), .Lit (.Str "c")])
        state_aligned = .ok .OwnedString ⟨3, true, code, [], [], []⟩ ∧
      StrSem.run code machine0 =
        some ⟨.ptr (.heap 1) 0, .n 3, .ptr (.heap 1) 1, .ptr (.heap 0) 0,
          [], [(0, "c"), (1, "b"), (2, "a")],
          [[some 'b', some 'c'], [some 'a', some 'b', some 'c']], [0]⟩) := by
  refine ⟨fun n sp s => rfl, fun m => rfl, fun n sp e s => rfl, ?_,
    ⟨rfl, rfl⟩, ⟨_, rfl, rfl⟩⟩
  intro n sp a b more s t s' hlits hfuel h
  simp only [generate_func_call] at h
  rcases hsl : split_last a (b :: more) with ⟨rest, last⟩
  rw [hsl] at h
  have happ : rest ++ [last] = a :: b :: more := by
    have := split_last_append (b :: more) a
    rw [hsl] at this
    exact this
  have hlen : rest.length = more.length + 1 := by
    have := congrArg List.length happ
    simp at this
    omega
  have hlast : ∃ str, last = .Lit (.Str str) := by
    apply hlits
    rw [← happ]
    simp
  have hrest : ∀ e ∈ rest, ∃ str, e = .Lit (.Str str) := by
    intro e he
    apply hlits
    rw [← happ]
    simp [he]
  obtain ⟨strL, rfl⟩ := hlast
  rw [bind_ok_iff] at h
  obtain ⟨u1, s1, h1, h⟩ := h
  rw [generate_cow_lit strL n s (by omega)] at h1
  cases h1
  rw [bind_ok_iff] at h
  obtain ⟨w, sw, hw, h⟩ := h
  simp only [get_aligned] at hw
  cases hw
  by_cases hflag : (emit [Instr.lea_rax_static s.uid_generator,
      Instr.mov_rdx_imm strL.length]
      (emit [Instr.staticstr s.uid_generator strL]
        { s with uid_generator := s.uid_generator + 1 })).stack_aligned
      = true
  · rw [if_pos hflag] at h
    rw [bind_ok_iff] at h
    obtain ⟨u2, s2, h2, h⟩ := h
    rw [pure_apply] at h2
    cases h2
    rw [bind_ok_iff] at h
    obtain ⟨u3, s3, h3, h⟩ := h
    simp only [set_aligned] at h3
    cases h3
    rw [bind_ok_iff] at h
    obtain ⟨u4, s4, h4, h⟩ := h
    have hc4 := concat_loop_drop_count rest hrest n _ _ (by omega) h4
    rw [if_pos hflag] at h
    rw [bind_ok_iff] at h
    obtain ⟨u5, s5, h5, h⟩ := h
    rw [pure_apply] at h5
    cases h5
    rw [bind_ok_iff] at h
    obtain ⟨u6, s6, h6, h⟩ := h
    simp only [set_aligned] at h6
    cases h6
    rw [pure_apply] at h
    cases h
    refine ⟨rfl, ?_⟩
    have e1 : List.count (Instr.call "drop_pop_cow")
        [Instr.staticstr s.uid_generator strL] = 0 := rfl
    have e2 : List.count (Instr.call "drop_pop_cow")
        [Instr.lea_rax_static s.uid_generator,
         Instr.mov_rdx_imm strL.length] = 0 := rfl
    simp only [countDrop, emit_code, List.count_append] at hc4 ⊢
    rw [e1, e2] at hc4
    omega
  · rw [if_neg hflag] at h
    rw [bind_ok_iff] at h
    obtain ⟨u2, s2, h2, h⟩ := h
    simp only [emitM] at h2
    cases h2
    rw [bind_ok_iff] at h
    obtain ⟨u3, s3, h3, h⟩ := h
    simp only [set_aligned] at h3
    cases h3
    rw [bind_ok_iff] at h
    obtain ⟨u4, s4, h4, h⟩ := h
    have hc4 := concat_loop_drop_count rest hrest n _ _ (by omega) h4
    rw [if_neg hflag] at h
    rw [bind_ok_iff] at h
    obtain ⟨u5, s5, h5, h⟩ := h
    simp only [emitM] at h5
    cases h5
    rw [bind_ok_iff] at h
    obtain ⟨u6, s6, h6, h⟩ := h
    simp only [set_aligned] at h6
    cases h6
    rw [pure_apply] at h
    cases h
    refine ⟨rfl, ?_⟩
    have e1 : List.count (Instr.call "drop_pop_cow")
        [Instr.staticstr s.uid_generator strL] = 0 := rfl
    have e2 : List.count (Instr.call "drop_pop_cow")
        [Instr.lea_rax_static s.uid_generator,
         Instr.mov_rdx_imm strL.length] = 0 := rfl
    have e3 : List.count (Instr.call "drop_pop_cow")
        [Instr.sub_rsp 8] = 0 := rfl
    have e4 : List.count (Instr.call "drop_pop_cow")
        [Instr.add_rsp 8] = 0 := rfl
    simp only [countDrop, emit_code, List.count_append] at hc4 ⊢
    rw [e1, e2, e3] at hc4
    rw [e4]
    omega

/-- Witness for C5: the fold law instantiated at `(++ "ab" "cd")` with
fuel 4 from the aligned empty state; both argument literals are strings,
the fuel bound holds, and the run succeeds with `concat2_code`, which
contains exactly two `drop_pop_cow` calls. -/
theorem string_concat_fold_witness :
    Typ.OwnedString = Typ.OwnedString ∧
    countDrop (AsmProgram.mk 2 true concat2_code [] [] []).code =
      countDrop state_aligned.code + 2 * (([] : List Expr).length + 1) :=
  string_concat_fold.2.2.2.1 3 span0 (.Lit (.Str "ab")) (.Lit (.Str "cd"))
    [] state_aligned .OwnedString ⟨2, true, concat2_code, [], [], []⟩
    (by
      intro e he
      simp only [List.mem_cons, List.not_mem_nil, or_false] at he
      rcases he with rfl | rfl
      · exact ⟨"ab", rfl⟩
      · exact ⟨"cd", rfl⟩)
    (by decide)
    (by rfl)

end Scratch
